import Mathlib

/-!
# drlm-common, package `os`: the SSH commands (`pkg/os/cmdssh.go`)

A shallow embedding of the three procedures of `cmdssh.go`
(`CmdSSHGetHostKeys`, `CmdSSHCopyID`, `CmdSSHGetKeysPath`) together with the
part of the Go standard library they use, and theorems about the calls they
make on the remote client and the values they return.

* Go strings and byte slices are lists of bytes, every byte a natural number.
* A procedure runs in `Proc`, which threads the client, the trace of the
  calls made on it with what they returned, and the list of the helpers
  invoked; a `return` inside an `if` ends the procedure, as in Go.
* `path/filepath` is modelled for a host whose separator is `/`.
* The sibling helpers (`CmdFSHome`, `CmdFSChown`, ...), the `Client` interface,
  the type `OS`, `IsUnix` and `ErrUnsupportedOS` are declared in other files of
  the package; they are the fields of `Env`.
-/

namespace Drlm

/-! ## Strings -/

/-- A Go string (or byte slice): its bytes in order. -/
abbrev Str := List Nat

/-- The bytes of an ASCII literal of the source. -/
def lit (s : String) : Str := s.data.map Char.toNat

/-- Go `strings.HasPrefix(s, p)`: the bytes of `s` begin with the bytes of `p`. -/
def HasPrefix : Str → Str → Bool
  | _, [] => true
  | [], _ :: _ => false
  | a :: s, b :: p => a == b && HasPrefix s p

/-- Go `strings.Split(s, sep)` for a separator `sep` of one byte: the fields of
`s` between the occurrences of `sep`, in order; a string without the
separator is its own single field and the empty string has the one field `""`. -/
def Split (sep : Nat) : Str → List Str
  | [] => [[]]
  | b :: s =>
    if b = sep then [] :: Split sep s
    else
      match Split sep s with
      | [] => [[b]]
      | l :: ls => (b :: l) :: ls

/-- The UTF-8 encodings of the code points for which Go `unicode.IsSpace` holds:
tab, line feed, vertical tab, form feed, carriage return, space, U+0085,
U+00A0, U+1680, U+2000 to U+200A, U+2028, U+2029, U+202F, U+205F, U+3000. -/
def spaceEncodings : List Str :=
  [[0x09], [0x0A], [0x0B], [0x0C], [0x0D], [0x20],
   [0xC2, 0x85], [0xC2, 0xA0], [0xE1, 0x9A, 0x80],
   [0xE2, 0x80, 0x80], [0xE2, 0x80, 0x81], [0xE2, 0x80, 0x82], [0xE2, 0x80, 0x83],
   [0xE2, 0x80, 0x84], [0xE2, 0x80, 0x85], [0xE2, 0x80, 0x86], [0xE2, 0x80, 0x87],
   [0xE2, 0x80, 0x88], [0xE2, 0x80, 0x89], [0xE2, 0x80, 0x8A],
   [0xE2, 0x80, 0xA8], [0xE2, 0x80, 0xA9], [0xE2, 0x80, 0xAF],
   [0xE2, 0x81, 0x9F], [0xE3, 0x80, 0x80]]

/-- The number of bytes of the white-space code point with which `s` begins
(0 when it begins with none), the encodings being given by `encs`. -/
def leadingSpace (encs : List Str) (s : Str) : Nat :=
  match encs.find? (fun e => HasPrefix s e) with
  | some e => e.length
  | none => 0

/-- Go `strings.TrimLeftFunc(s, unicode.IsSpace)` with `n` bytes of fuel: drops
white-space code points from the front for as long as there is one. -/
def trimLeftAux (encs : List Str) : Nat → Str → Str
  | 0, s => s
  | n + 1, s =>
    match leadingSpace encs s with
    | 0 => s
    | k + 1 => trimLeftAux encs n (s.drop (k + 1))

/-- Go `strings.TrimLeftFunc(s, unicode.IsSpace)`. -/
def TrimLeftSpace (s : Str) : Str := trimLeftAux spaceEncodings s.length s

/-- Go `strings.TrimRightFunc(s, unicode.IsSpace)`: the same from the back, a
code point ending `s` exactly when its encoding, reversed, begins the
reversed string. -/
def TrimRightSpace (s : Str) : Str :=
  (trimLeftAux (spaceEncodings.map List.reverse) s.length s.reverse).reverse

/-- Go `strings.TrimSpace(s)`: `s` without its leading and trailing white space. -/
def TrimSpace (s : Str) : Str := TrimRightSpace (TrimLeftSpace s)

/-- Go `strconv.Itoa(i)`: the decimal digits of `i`, after a minus sign when
`i` is negative. -/
def Itoa (i : Int) : Str :=
  if i < 0 then 45 :: (Nat.toDigits 10 i.natAbs).map Char.toNat
  else (Nat.toDigits 10 i.natAbs).map Char.toNat

/-! ## Paths: `path/filepath` with the separator `/` -/

/-- One step of Go `filepath.Clean` over the elements of a path, `stack` being
the elements kept so far, last one first: empty elements and `.` are dropped,
`..` removes the element before it, or is kept when the path is not rooted
and nothing but `..` stands before it, or is dropped at the root. -/
def cleanStep (rooted : Bool) (stack : List Str) (e : Str) : List Str :=
  if e = [] ∨ e = lit "." then stack
  else if e = lit ".." then
    match stack with
    | [] => if rooted then [] else [e]
    | top :: rest => if top = lit ".." then (if rooted then stack else e :: stack) else rest
  else e :: stack

/-- Go `filepath.Clean(path)` on a host whose separator is `/`. -/
def Clean (path : Str) : Str :=
  let rooted := HasPrefix path (lit "/")
  let kept := ((Split 47 path).foldl (cleanStep rooted) []).reverse
  if rooted then 47 :: (lit "/").intercalate kept
  else if kept = [] then lit "." else (lit "/").intercalate kept

/-- Go `filepath.Join(a, b)` on a host whose separator is `/`: the non-empty
elements joined by `/` and cleaned, the empty string when both are empty. -/
def Join (a b : Str) : Str :=
  if a ≠ [] then Clean (a ++ 47 :: b)
  else if b ≠ [] then Clean b
  else []

/-! ## Errors -/

/-- A Go `error` value that is not nil: one that exists outside this file (a
package variable such as `ErrUnsupportedOS`, or an error made by a
collaborator), told apart by `id`, or one made here by `fmt.Errorf`. `nil` is
`none` in `Option GoError`. -/
inductive GoError where
  | value (id : Nat) (text : Str)
  | errorf (text : Str)
  deriving DecidableEq, Repr

/-- The method `Error()`: the message of an error. -/
def GoError.Error : GoError → Str
  | .value _ text => text
  | .errorf text => text

/-- Formatting with one operand, for a format with the single verb `%v`
(bytes 37, 118): the verb is replaced by the operand, the bytes around it are
copied. -/
def Sprintf : Str → Str → Str
  | [], _ => []
  | b :: format, operand =>
    if b = 37 ∧ format.head? = some 118 then operand ++ format.tail
    else b :: Sprintf format operand

/-- Go `fmt.Errorf(format, err)` for a format with the single verb `%v`: a new
error whose message is the format with `err.Error()` in place of the verb. -/
def Errorf (format : Str) (err : GoError) : GoError :=
  .errorf (Sprintf format err.Error)

/-! ## The collaborators and the trace of calls -/

/-- A call made on the client: `Client.Exec`, or one of the sibling helpers of
the package that take the client, with the arguments passed. -/
inductive Call where
  | Exec (name : Str) (args : List Str)
  | CmdFSHome (usr : Str)
  | CmdUserGroup (usr : Str)
  | CmdFSCheckDir (path : Str)
  | CmdFSMkdir (path : Str)
  | CmdFSChown (path usr grp : Str)
  | CmdFSChmod (path : Str) (mode : Nat)
  | CmdFSCheckFile (path : Str)
  | CmdFSCopy (src dst : Str)
  | CmdFSAppendToFile (path data : Str)
  | CmdFSMove (src dst : Str)
  deriving DecidableEq, Repr

/-- What a call returned: an error, or (with a nil error) nothing, a string or
byte slice, or a boolean. -/
inductive Reply where
  | failed (err : GoError)
  | done
  | bytes (out : Str)
  | flag (b : Bool)
  deriving DecidableEq, Repr

/-- One entry of the trace: a call and what it returned. -/
structure Event where
  call : Call
  reply : Reply
  deriving DecidableEq, Repr

/-- What the file takes from the rest of the package and from its caller: the
method `IsUnix` of `OS`, the variable `ErrUnsupportedOS`, the method `Exec` of
the client and the helpers. A call on the client returns its Go results and
the client as the call leaves it. -/
structure Env (OS Client : Type) where
  IsUnix : OS → Bool
  ErrUnsupportedOS : GoError
  Exec : Client → Str → List Str → (Str × Option GoError) × Client
  CmdFSHome : OS → Client → Str → (Str × Option GoError) × Client
  CmdUserGroup : OS → Client → Str → (Str × Option GoError) × Client
  CmdFSCheckDir : OS → Client → Str → (Bool × Option GoError) × Client
  CmdFSMkdir : OS → Client → Str → Option GoError × Client
  CmdFSChown : OS → Client → Str → Str → Str → Option GoError × Client
  CmdFSChmod : OS → Client → Str → Nat → Option GoError × Client
  CmdFSCheckFile : OS → Client → Str → (Bool × Option GoError) × Client
  CmdFSCopy : OS → Client → Str → Str → Option GoError × Client
  CmdFSAppendToFile : OS → Client → Str → Str → Option GoError × Client
  CmdFSMove : OS → Client → Str → Str → Option GoError × Client
  CmdFSTempDir : OS → Str

/-- A helper or method invoked by the file: a call on the client, or
`CmdFSTempDir`, the one helper that takes no client. -/
inductive Invocation where
  | onClient (call : Call)
  | CmdFSTempDir
  deriving DecidableEq, Repr

/-- The state of a run: the client, the calls made on it so far with what they
returned (`trace`), and every helper invoked so far, with or without the
client (`invoked`), both oldest first. -/
structure Run (Client : Type) where
  client : Client
  trace : List Event
  invoked : List Invocation
  deriving DecidableEq

/-- A procedure: from the state of the run to its Go results and the new state. -/
def Proc (Client : Type) (α : Type) : Type := Run Client → α × Run Client

instance (Client : Type) : Monad (Proc Client) where
  pure a := fun r => (a, r)
  bind m f := fun r => f (m r).1 (m r).2

/-- A call that returns a value and an error, recorded in the trace. -/
def callValue {Client α : Type} (call : Call) (reply : α → Reply)
    (act : Client → (α × Option GoError) × Client) : Proc Client (α × Option GoError) :=
  fun r =>
    let res := act r.client
    let rep := match res.1.2 with
      | some err => Reply.failed err
      | none => reply res.1.1
    (res.1, ⟨res.2, r.trace ++ [⟨call, rep⟩], r.invoked ++ [.onClient call]⟩)

/-- A call that returns an error only, recorded in the trace. -/
def callError {Client : Type} (call : Call)
    (act : Client → Option GoError × Client) : Proc Client (Option GoError) :=
  fun r =>
    let res := act r.client
    let rep := match res.1 with
      | some err => Reply.failed err
      | none => Reply.done
    (res.1, ⟨res.2, r.trace ++ [⟨call, rep⟩], r.invoked ++ [.onClient call]⟩)

/-- The helper `CmdFSTempDir`, which takes no client: its invocation is recorded
among the helpers invoked and is no call on the client. -/
def callTempDir {OS Client : Type} (w : Env OS Client) (os : OS) : Proc Client Str :=
  fun r => (w.CmdFSTempDir os, ⟨r.client, r.trace, r.invoked ++ [.CmdFSTempDir]⟩)

/-! ## `cmdssh.go` -/

section Procedures

variable {OS Client : Type}

/-- The loop of `CmdSSHGetHostKeys` over the lines: a line is appended to `keys`
unless it begins with `"# "`. -/
def hostKeysLoop (lines : List Str) : List Str :=
  lines.foldl (fun keys l => if !HasPrefix l (lit "# ") then keys ++ [l] else keys) []

/-- `CmdSSHGetHostKeys` returns the public SSH keys of a host. -/
def CmdSSHGetHostKeys (w : Env OS Client) (os : OS) (host : Str) (port : Int) :
    Proc Client (List Str × Option GoError) := do
  if w.IsUnix os then
    let (out, err) ← callValue (.Exec (lit "ssh-keyscan") [lit "-p", Itoa port, host]) .bytes
      (fun c => w.Exec c (lit "ssh-keyscan") [lit "-p", Itoa port, host])
    if let some err := err then
      return ([], some (Errorf (lit "error getting the host SSH keys: %v") err))
    let keys := hostKeysLoop (Split 10 (TrimSpace out))
    return (keys, none)
  else
    return ([], some w.ErrUnsupportedOS)

/-- `CmdSSHCopyID` copies the key to the OS. -/
def CmdSSHCopyID (w : Env OS Client) (os : OS) (usr : Str) (key : Str) :
    Proc Client (Option GoError) := do
  if w.IsUnix os then
    let (home, err) ← callValue (.CmdFSHome usr) .bytes (fun c => w.CmdFSHome os c usr)
    if let some err := err then
      return some (Errorf (lit "error copying the SSH key: %v") err)

    let (grp, err) ← callValue (.CmdUserGroup usr) .bytes (fun c => w.CmdUserGroup os c usr)
    if let some err := err then
      return some (Errorf (lit "error copying the SSH key: %v") err)

    let sshDir := Join home (lit ".ssh")
    let (dirExists, err) ← callValue (.CmdFSCheckDir sshDir) .flag
      (fun c => w.CmdFSCheckDir os c sshDir)
    if let some err := err then
      return some (Errorf (lit "error checking the SSH directory: %v") err)

    -- If the SSH directory doesn't exist, create it
    if !dirExists then
      let err ← callError (.CmdFSMkdir sshDir) (fun c => w.CmdFSMkdir os c sshDir)
      if let some err := err then
        return some (Errorf (lit "error creating the SSH directory: %v") err)

      let err ← callError (.CmdFSChown sshDir usr grp) (fun c => w.CmdFSChown os c sshDir usr grp)
      if let some err := err then
        return some (Errorf (lit "error changing the SSH directory owner: %v") err)

      let err ← callError (.CmdFSChmod sshDir 0o700) (fun c => w.CmdFSChmod os c sshDir 0o700)
      if let some err := err then
        return some (Errorf (lit "error changing the SSH directory permissions: %v") err)

    let authKeys := Join sshDir (lit "authorized_keys")
    let tmpDir ← callTempDir w os
    let tmpAuthKeys := Join tmpDir (lit "drlm_core_authorized_keys")
    let (fileExists, err) ← callValue (.CmdFSCheckFile authKeys) .flag
      (fun c => w.CmdFSCheckFile os c authKeys)
    if let some err := err then
      return some (Errorf (lit "error checking for the authorized_keys file: %v") err)

    if fileExists then
      let err ← callError (.CmdFSCopy authKeys tmpAuthKeys)
        (fun c => w.CmdFSCopy os c authKeys tmpAuthKeys)
      if let some err := err then
        return some (Errorf (lit "error copying the authorized_keys file: %v") err)

    let err ← callError (.CmdFSAppendToFile tmpAuthKeys key)
      (fun c => w.CmdFSAppendToFile os c tmpAuthKeys key)
    if let some err := err then
      return some (Errorf (lit "error adding the key to the authorized_keys file: %v") err)

    let err ← callError (.CmdFSMove tmpAuthKeys authKeys)
      (fun c => w.CmdFSMove os c tmpAuthKeys authKeys)
    if let some err := err then
      return some (Errorf (lit "error replacing the authorized_keys file: %v") err)

    let err ← callError (.CmdFSChown authKeys usr grp) (fun c => w.CmdFSChown os c authKeys usr grp)
    if let some err := err then
      return some (Errorf (lit "error changing the authorized_keys owner: %v") err)

    let err ← callError (.CmdFSChmod authKeys 0o600) (fun c => w.CmdFSChmod os c authKeys 0o600)
    if let some err := err then
      return some (Errorf (lit "error changing the authorized_keys permissions: %v") err)

    return none
  else
    return some w.ErrUnsupportedOS

/-- `CmdSSHGetKeysPath` returns the SSH keys directory. -/
def CmdSSHGetKeysPath (w : Env OS Client) (os : OS) (usr : Str) :
    Proc Client (Str × Option GoError) := do
  if w.IsUnix os then
    let (home, err) ← callValue (.CmdFSHome usr) .bytes (fun c => w.CmdFSHome os c usr)
    if let some err := err then
      return ([], some (Errorf (lit "error getting the public key: %v") err))
    return (Join home (lit ".ssh"), none)
  else
    return ([], some w.ErrUnsupportedOS)

/-- The state in which a procedure is entered: the client as the caller passes
it, no call made and no helper invoked yet. -/
def start (c : Client) : Run Client := ⟨c, [], []⟩

end Procedures

/-! ## A client for the examples -/

/-- The error with which the example client fails. -/
def demoError : GoError := .value 1 (lit "exit status 1")

/-- The example client is the number of calls made on it so far; the call
number `failAt` fails. -/
def demoFail (failAt : Option Nat) (c : Nat) : Option GoError :=
  if failAt = some c then some demoError else none

/-- An environment for the examples: the OS is its name and `linux` is the one
Unix name, the home of `u` is `/home/u`, its group is `users`, the temporary
directory is `/tmp`, `dirExists` and `fileExists` are what the two checks
report, `out` is the output of every command, and the call number `failAt`
(counted from 0) fails. -/
def demoEnv (failAt : Option Nat) (dirExists fileExists : Bool) (out : Str) : Env Str Nat where
  IsUnix os := os == lit "linux"
  ErrUnsupportedOS := .value 0 (lit "unsupported OS")
  Exec c _ _ := ((out, demoFail failAt c), c + 1)
  CmdFSHome _ c usr := ((lit "/home/" ++ usr, demoFail failAt c), c + 1)
  CmdUserGroup _ c _ := ((lit "users", demoFail failAt c), c + 1)
  CmdFSCheckDir _ c _ := ((dirExists, demoFail failAt c), c + 1)
  CmdFSMkdir _ c _ := (demoFail failAt c, c + 1)
  CmdFSChown _ c _ _ _ := (demoFail failAt c, c + 1)
  CmdFSChmod _ c _ _ := (demoFail failAt c, c + 1)
  CmdFSCheckFile _ c _ := ((fileExists, demoFail failAt c), c + 1)
  CmdFSCopy _ c _ _ := (demoFail failAt c, c + 1)
  CmdFSAppendToFile _ c _ _ := (demoFail failAt c, c + 1)
  CmdFSMove _ c _ _ := (demoFail failAt c, c + 1)
  CmdFSTempDir _ := lit "/tmp"

/-! ## Definitions used by the statements -/

/-- A plain element of a path: not empty, without the separator, and neither
`.` nor `..`. -/
def PlainName (e : Str) : Prop := e ≠ [] ∧ 47 ∉ e ∧ e ≠ lit "." ∧ e ≠ lit ".."

instance (e : Str) : Decidable (PlainName e) := by
  unfold PlainName
  infer_instance

/-- The events of the directory stage when every call of it succeeds. -/
def dirDone (sshDir usr grp : Str) (dirExists : Bool) : List Event :=
  if dirExists then []
  else [⟨.CmdFSMkdir sshDir, .done⟩, ⟨.CmdFSChown sshDir usr grp, .done⟩,
        ⟨.CmdFSChmod sshDir 0o700, .done⟩]

/-- The events of the check of `authorized_keys` and of its copy. -/
def fileDone (authKeys tmp : Str) (fileExists : Bool) : List Event :=
  ⟨.CmdFSCheckFile authKeys, .flag fileExists⟩ ::
    (if fileExists then [⟨.CmdFSCopy authKeys tmp, .done⟩] else [])

/-- What `CmdSSHCopyID` returns and records after a successful `CmdFSCheckDir`. -/
inductive CopyIDTail (usr key grp sshDir authKeys tmp : Str) :
    Bool → Option GoError → List Event → Prop
  | mkdirFailed (e : GoError) :
    CopyIDTail usr key grp sshDir authKeys tmp false
      (some (Errorf (lit "error creating the SSH directory: %v") e))
      [⟨.CmdFSMkdir sshDir, .failed e⟩]
  | chownDirFailed (e : GoError) :
    CopyIDTail usr key grp sshDir authKeys tmp false
      (some (Errorf (lit "error changing the SSH directory owner: %v") e))
      [⟨.CmdFSMkdir sshDir, .done⟩, ⟨.CmdFSChown sshDir usr grp, .failed e⟩]
  | chmodDirFailed (e : GoError) :
    CopyIDTail usr key grp sshDir authKeys tmp false
      (some (Errorf (lit "error changing the SSH directory permissions: %v") e))
      [⟨.CmdFSMkdir sshDir, .done⟩, ⟨.CmdFSChown sshDir usr grp, .done⟩,
       ⟨.CmdFSChmod sshDir 0o700, .failed e⟩]
  | checkFileFailed (d : Bool) (e : GoError) :
    CopyIDTail usr key grp sshDir authKeys tmp d
      (some (Errorf (lit "error checking for the authorized_keys file: %v") e))
      (dirDone sshDir usr grp d ++ [⟨.CmdFSCheckFile authKeys, .failed e⟩])
  | copyFailed (d : Bool) (e : GoError) :
    CopyIDTail usr key grp sshDir authKeys tmp d
      (some (Errorf (lit "error copying the authorized_keys file: %v") e))
      (dirDone sshDir usr grp d ++
        [⟨.CmdFSCheckFile authKeys, .flag true⟩, ⟨.CmdFSCopy authKeys tmp, .failed e⟩])
  | appendFailed (d f : Bool) (e : GoError) :
    CopyIDTail usr key grp sshDir authKeys tmp d
      (some (Errorf (lit "error adding the key to the authorized_keys file: %v") e))
      (dirDone sshDir usr grp d ++ fileDone authKeys tmp f ++
        [⟨.CmdFSAppendToFile tmp key, .failed e⟩])
  | moveFailed (d f : Bool) (e : GoError) :
    CopyIDTail usr key grp sshDir authKeys tmp d
      (some (Errorf (lit "error replacing the authorized_keys file: %v") e))
      (dirDone sshDir usr grp d ++ fileDone authKeys tmp f ++
        [⟨.CmdFSAppendToFile tmp key, .done⟩, ⟨.CmdFSMove tmp authKeys, .failed e⟩])
  | chownFileFailed (d f : Bool) (e : GoError) :
    CopyIDTail usr key grp sshDir authKeys tmp d
      (some (Errorf (lit "error changing the authorized_keys owner: %v") e))
      (dirDone sshDir usr grp d ++ fileDone authKeys tmp f ++
        [⟨.CmdFSAppendToFile tmp key, .done⟩, ⟨.CmdFSMove tmp authKeys, .done⟩,
         ⟨.CmdFSChown authKeys usr grp, .failed e⟩])
  | chmodFileFailed (d f : Bool) (e : GoError) :
    CopyIDTail usr key grp sshDir authKeys tmp d
      (some (Errorf (lit "error changing the authorized_keys permissions: %v") e))
      (dirDone sshDir usr grp d ++ fileDone authKeys tmp f ++
        [⟨.CmdFSAppendToFile tmp key, .done⟩, ⟨.CmdFSMove tmp authKeys, .done⟩,
         ⟨.CmdFSChown authKeys usr grp, .done⟩, ⟨.CmdFSChmod authKeys 0o600, .failed e⟩])
  | success (d f : Bool) :
    CopyIDTail usr key grp sshDir authKeys tmp d none
      (dirDone sshDir usr grp d ++ fileDone authKeys tmp f ++
        [⟨.CmdFSAppendToFile tmp key, .done⟩, ⟨.CmdFSMove tmp authKeys, .done⟩,
         ⟨.CmdFSChown authKeys usr grp, .done⟩, ⟨.CmdFSChmod authKeys 0o600, .done⟩])

/-- The runs of `CmdSSHCopyID` on a Unix OS from the client `c`: what is
returned and the trace, by the answers of the first three helpers. -/
inductive CopyIDRun (w : Env OS Client) (os : OS) (usr key : Str) (c : Client) :
    Option GoError → List Event → Prop
  | homeFailed (v : Str) (e : GoError) (c1 : Client)
    (h1 : w.CmdFSHome os c usr = ((v, some e), c1)) :
    CopyIDRun w os usr key c (some (Errorf (lit "error copying the SSH key: %v") e))
      [⟨.CmdFSHome usr, .failed e⟩]
  | groupFailed (home v : Str) (e : GoError) (c1 c2 : Client)
    (h1 : w.CmdFSHome os c usr = ((home, none), c1))
    (h2 : w.CmdUserGroup os c1 usr = ((v, some e), c2)) :
    CopyIDRun w os usr key c (some (Errorf (lit "error copying the SSH key: %v") e))
      [⟨.CmdFSHome usr, .bytes home⟩, ⟨.CmdUserGroup usr, .failed e⟩]
  | checkDirFailed (home grp : Str) (v : Bool) (e : GoError) (c1 c2 c3 : Client)
    (h1 : w.CmdFSHome os c usr = ((home, none), c1))
    (h2 : w.CmdUserGroup os c1 usr = ((grp, none), c2))
    (h3 : w.CmdFSCheckDir os c2 (Join home (lit ".ssh")) = ((v, some e), c3)) :
    CopyIDRun w os usr key c (some (Errorf (lit "error checking the SSH directory: %v") e))
      [⟨.CmdFSHome usr, .bytes home⟩, ⟨.CmdUserGroup usr, .bytes grp⟩,
       ⟨.CmdFSCheckDir (Join home (lit ".ssh")), .failed e⟩]
  | checked (home grp : Str) (d : Bool) (c1 c2 c3 : Client) (ret : Option GoError)
    (rest : List Event)
    (h1 : w.CmdFSHome os c usr = ((home, none), c1))
    (h2 : w.CmdUserGroup os c1 usr = ((grp, none), c2))
    (h3 : w.CmdFSCheckDir os c2 (Join home (lit ".ssh")) = ((d, none), c3))
    (ht : CopyIDTail usr key grp (Join home (lit ".ssh"))
      (Join (Join home (lit ".ssh")) (lit "authorized_keys"))
      (Join (w.CmdFSTempDir os) (lit "drlm_core_authorized_keys")) d ret rest) :
    CopyIDRun w os usr key c ret
      ([⟨.CmdFSHome usr, .bytes home⟩, ⟨.CmdUserGroup usr, .bytes grp⟩,
        ⟨.CmdFSCheckDir (Join home (lit ".ssh")), .flag d⟩] ++ rest)

/-- What the environment returns for a call made on the client `c`, as the
trace records it, and the client as the call leaves it: the method or helper
of `Env` that the call names, applied to `c` and the arguments of the call. -/
def Env.answer {OS Client : Type} (w : Env OS Client) (os : OS) (c : Client) :
    Call → Reply × Client
  | .Exec name args =>
    (match (w.Exec c name args).1.2 with
      | some err => .failed err
      | none => .bytes (w.Exec c name args).1.1, (w.Exec c name args).2)
  | .CmdFSHome usr =>
    (match (w.CmdFSHome os c usr).1.2 with
      | some err => .failed err
      | none => .bytes (w.CmdFSHome os c usr).1.1, (w.CmdFSHome os c usr).2)
  | .CmdUserGroup usr =>
    (match (w.CmdUserGroup os c usr).1.2 with
      | some err => .failed err
      | none => .bytes (w.CmdUserGroup os c usr).1.1, (w.CmdUserGroup os c usr).2)
  | .CmdFSCheckDir path =>
    (match (w.CmdFSCheckDir os c path).1.2 with
      | some err => .failed err
      | none => .flag (w.CmdFSCheckDir os c path).1.1, (w.CmdFSCheckDir os c path).2)
  | .CmdFSMkdir path =>
    (match (w.CmdFSMkdir os c path).1 with
      | some err => .failed err
      | none => .done, (w.CmdFSMkdir os c path).2)
  | .CmdFSChown path usr grp =>
    (match (w.CmdFSChown os c path usr grp).1 with
      | some err => .failed err
      | none => .done, (w.CmdFSChown os c path usr grp).2)
  | .CmdFSChmod path mode =>
    (match (w.CmdFSChmod os c path mode).1 with
      | some err => .failed err
      | none => .done, (w.CmdFSChmod os c path mode).2)
  | .CmdFSCheckFile path =>
    (match (w.CmdFSCheckFile os c path).1.2 with
      | some err => .failed err
      | none => .flag (w.CmdFSCheckFile os c path).1.1, (w.CmdFSCheckFile os c path).2)
  | .CmdFSCopy src dst =>
    (match (w.CmdFSCopy os c src dst).1 with
      | some err => .failed err
      | none => .done, (w.CmdFSCopy os c src dst).2)
  | .CmdFSAppendToFile path data =>
    (match (w.CmdFSAppendToFile os c path data).1 with
      | some err => .failed err
      | none => .done, (w.CmdFSAppendToFile os c path data).2)
  | .CmdFSMove src dst =>
    (match (w.CmdFSMove os c src dst).1 with
      | some err => .failed err
      | none => .done, (w.CmdFSMove os c src dst).2)

/-- The calls `calls` made in order on the environment from the client `c`,
each on the client as the one before left it: the events with what the
environment returned, and the client after the last call. -/
def Env.replay {OS Client : Type} (w : Env OS Client) (os : OS) :
    Client → List Call → List Event × Client
  | c, [] => ([], c)
  | c, call :: calls =>
    (⟨call, (w.answer os c call).1⟩ :: (w.replay os (w.answer os c call).2 calls).1,
      (w.replay os (w.answer os c call).2 calls).2)

/-- The run state `r` is what the environment gives from the client `c`: its
trace holds, for the calls it lists, what the environment returned to each in
turn, and its client is the one the last call left. -/
def Honest {OS Client : Type} (w : Env OS Client) (os : OS) (c : Client) (r : Run Client) :
    Prop :=
  w.replay os c (r.trace.map Event.call) = (r.trace, r.client)

/-- The procedure `m` keeps a run honest: run from an honest state it leaves
an honest state. -/
structure KeepsHonest {OS Client α : Type} (w : Env OS Client) (os : OS) (c : Client)
    (m : Proc Client α) : Prop where
  keeps : ∀ r, Honest w os c r → Honest w os c (m r).2

/-- Whether the check of `authorized_keys` is among the calls `before`: the
calls after it belong to the file, those before it to the directory. -/
def checkedFile (before : List Call) : Bool :=
  before.any fun
    | .CmdFSCheckFile _ => true
    | _ => false

/-- The context message of each step of `CmdSSHCopyID`, by the helper called
and, for `CmdFSChown` and `CmdFSChmod` (called on the directory and on the
file), by the calls made `before`. `Exec` is no step of it. -/
def stepContext (before : List Call) : Call → Str
  | .Exec _ _ => []
  | .CmdFSHome _ => lit "error copying the SSH key"
  | .CmdUserGroup _ => lit "error copying the SSH key"
  | .CmdFSCheckDir _ => lit "error checking the SSH directory"
  | .CmdFSMkdir _ => lit "error creating the SSH directory"
  | .CmdFSChown _ _ _ =>
    if checkedFile before then lit "error changing the authorized_keys owner"
    else lit "error changing the SSH directory owner"
  | .CmdFSChmod _ _ =>
    if checkedFile before then lit "error changing the authorized_keys permissions"
    else lit "error changing the SSH directory permissions"
  | .CmdFSCheckFile _ => lit "error checking for the authorized_keys file"
  | .CmdFSCopy _ _ => lit "error copying the authorized_keys file"
  | .CmdFSAppendToFile _ _ => lit "error adding the key to the authorized_keys file"
  | .CmdFSMove _ _ => lit "error replacing the authorized_keys file"

/-! ## Theorems -/

section Theorems

variable {OS Client : Type}

/-- Running `m >>= f`: `f` is run on the result and the state that `m` leaves. -/
theorem Proc.bind_apply {α β : Type} (m : Proc Client α) (f : α → Proc Client β) (r : Run Client) :
    (m >>= f) r = f (m r).1 (m r).2 := rfl
/-- Running `pure a` returns `a` and leaves the state. -/
theorem Proc.pure_apply {α : Type} (a : α) (r : Run Client) :
    (pure a : Proc Client α) r = (a, r) := rfl

/-! ## The standard library model -/

/-- The result of `Split` has at least one field. -/
theorem Split_ne_nil (sep : Nat) (s : Str) : Split sep s ≠ [] := by
  cases s with
  | nil => simp [Split]
  | cons b s =>
    unfold Split
    split
    · simp
    · split <;> simp

/-- Joining the fields of `Split` with the separator gives the string back. -/
theorem intercalate_Split (sep : Nat) (s : Str) : [sep].intercalate (Split sep s) = s := by
  induction s with
  | nil => simp [Split, List.intercalate]
  | cons b s ih =>
    unfold Split
    split
    · next h =>
      subst h
      have hne := Split_ne_nil b s
      cases hs : Split b s with
      | nil => exact absurd hs hne
      | cons l ls =>
        rw [hs] at ih
        cases ls with
        | nil => simpa [List.intercalate] using ih
        | cons l2 ls => simpa [List.intercalate, List.intersperse] using ih
    · cases hs : Split sep s with
      | nil => exact absurd hs (Split_ne_nil sep s)
      | cons l ls =>
        rw [hs] at ih
        cases ls with
        | nil => simpa [List.intercalate] using ih
        | cons l2 ls => simpa [List.intercalate, List.intersperse] using ih

/-- No field of `Split` holds the separator. -/
theorem not_mem_of_mem_Split (sep : Nat) (s l : Str) (h : l ∈ Split sep s) : sep ∉ l := by
  induction s generalizing l with
  | nil => simp [Split] at h; simp [h]
  | cons b s ih =>
    unfold Split at h
    split at h
    · rcases List.mem_cons.1 h with rfl | h
      · simp
      · exact ih l h
    · next hb =>
      cases hs : Split sep s with
      | nil => exact absurd hs (Split_ne_nil sep s)
      | cons l1 ls =>
        rw [hs] at h ih
        rcases List.mem_cons.1 h with rfl | h
        · have := ih l1 (List.mem_cons_self _ _)
          simp [this, Ne.symm hb]
        · exact ih l (List.mem_cons_of_mem _ h)

/-- A string without the separator is its own single field. -/
theorem Split_of_not_mem (sep : Nat) (s : Str) (h : sep ∉ s) : Split sep s = [s] := by
  induction s with
  | nil => simp [Split]
  | cons b s ih =>
    simp only [List.mem_cons, not_or] at h
    unfold Split
    rw [if_neg (Ne.symm h.1), ih h.2]

/-- The fields of two strings joined by the separator are the fields of the one
then the fields of the other. -/
theorem Split_append_sep (sep : Nat) (a b : Str) :
    Split sep (a ++ sep :: b) = Split sep a ++ Split sep b := by
  induction a with
  | nil => simp [Split]
  | cons x a ih =>
    by_cases hx : x = sep
    · simp [Split, hx, ih]
    · have h1 : Split sep (x :: a ++ sep :: b) =
          match Split sep (a ++ sep :: b) with
          | [] => [[x]]
          | l :: ls => (x :: l) :: ls := by
        rw [List.cons_append, Split, if_neg hx]
      have h2 : Split sep (x :: a) =
          match Split sep a with
          | [] => [[x]]
          | l :: ls => (x :: l) :: ls := by
        rw [Split, if_neg hx]
      rw [h1, h2, ih]
      cases hs : Split sep a with
      | nil => exact absurd hs (Split_ne_nil sep a)
      | cons l ls => simp

/-- The loop of `CmdSSHGetHostKeys` keeps the lines that do not begin with `"# "`. -/
theorem hostKeysLoop_eq_filter (lines : List Str) :
    hostKeysLoop lines = lines.filter (fun l => !HasPrefix l (lit "# ")) := by
  have h : ∀ (acc : List Str),
      lines.foldl (fun keys l => if !HasPrefix l (lit "# ") then keys ++ [l] else keys) acc =
        acc ++ lines.filter (fun l => !HasPrefix l (lit "# ")) := by
    induction lines with
    | nil => simp
    | cons l lines ih =>
      intro acc
      rw [List.foldl_cons, ih]
      by_cases hl : HasPrefix l (lit "# ") = true <;> simp [hl, List.filter_cons]
  simpa [hostKeysLoop] using h []

/-- The value of `Sprintf` on a format whose verb comes after `pre`. -/
theorem Sprintf_verb (pre suf operand : Str) (h : 37 ∉ pre) :
    Sprintf (pre ++ 37 :: 118 :: suf) operand = pre ++ operand ++ suf := by
  induction pre with
  | nil => simp [Sprintf]
  | cons b pre ih =>
    simp only [List.mem_cons, not_or] at h
    have hb : b ≠ 37 := Ne.symm h.1
    simp [Sprintf, hb, ih h.2]

/-- The message of the error made by `fmt.Errorf` from a format `ctx: %v`. -/
theorem Errorf_Error (ctx : Str) (err : GoError) (h : 37 ∉ ctx ++ lit ": ") :
    (Errorf (ctx ++ lit ": " ++ [37, 118]) err).Error = ctx ++ lit ": " ++ err.Error := by
  simp only [Errorf, GoError.Error]
  have := Sprintf_verb (ctx ++ lit ": ") [] err.Error h
  simpa using this

/-- A plain name is kept by `cleanStep`. -/
theorem cleanStep_plain (rooted : Bool) (stack : List Str) (e : Str) (h : PlainName e) :
    cleanStep rooted stack e = e :: stack := by
  obtain ⟨h1, _, h3, h4⟩ := h
  simp [cleanStep, h1, h3, h4]

/-- Joining a list that ends with `e`. -/
theorem intercalate_concat (sep : Str) (xs : List Str) (e : Str) :
    sep.intercalate (xs ++ [e]) = if xs = [] then e else sep.intercalate xs ++ sep ++ e := by
  induction xs with
  | nil => simp [List.intercalate]
  | cons x xs ih =>
    cases xs with
    | nil => simp [List.intercalate, List.intersperse]
    | cons y ys =>
      simp only [List.intercalate, List.cons_append, List.intersperse, reduceCtorEq,
        if_false] at ih ⊢
      simp [ih]

/-- A cleaned path whose last element is a plain name ends with that name,
which stands alone or after a separator. -/
theorem Clean_plain (a e : Str) (h : PlainName e) :
    ∃ pre, Clean (a ++ 47 :: e) = pre ++ e ∧ (pre = [] ∨ pre.getLast? = some 47) := by
  unfold Clean
  simp only [Split_append_sep, Split_of_not_mem 47 e h.2.1, List.foldl_append, List.foldl_cons,
    List.foldl_nil, cleanStep_plain _ _ e h, List.reverse_cons, intercalate_concat]
  have hl : lit "/" = [47] := by decide
  simp only [hl]
  generalize ((Split 47 a).foldl (cleanStep (HasPrefix (a ++ 47 :: e) [47])) []).reverse = xs
  by_cases hr : HasPrefix (a ++ 47 :: e) [47] = true
  · by_cases hx : xs = []
    · exact ⟨[47], by simp [hr, hx], Or.inr rfl⟩
    · exact ⟨(47 :: [47].intercalate xs) ++ [47], by simp [hr, hx],
        Or.inr (List.getLast?_concat _)⟩
  · by_cases hx : xs = []
    · exact ⟨[], by simp [hr, hx], Or.inl rfl⟩
    · exact ⟨[47].intercalate xs ++ [47], by simp [hr, hx],
        Or.inr (List.getLast?_concat _)⟩

/-- A plain name is a clean path. -/
theorem Clean_plain_self (e : Str) (h : PlainName e) : Clean e = e := by
  have hr : HasPrefix e (lit "/") = false := by
    obtain ⟨h1, h2, _, _⟩ := h
    cases e with
    | nil => exact absurd rfl h1
    | cons b e =>
      have hb : b ≠ 47 := fun hb => h2 (by simp [hb])
      simp [HasPrefix, lit, hb]
  unfold Clean
  simp [hr, Split_of_not_mem 47 e h.2.1, cleanStep_plain _ _ e h, List.intercalate]

/-- Joining a plain name to a path gives a path that ends with the name, which
stands alone or after a separator. -/
theorem Join_plain (a e : Str) (h : PlainName e) :
    ∃ pre, Join a e = pre ++ e ∧ (pre = [] ∨ pre.getLast? = some 47) := by
  unfold Join
  by_cases ha : a = []
  · refine ⟨[], ?_, Or.inl rfl⟩
    simp [ha, h.1, Clean_plain_self e h]
  · simpa [ha] using Clean_plain a e h

/-- The `authorized_keys` file of a directory is not the directory `.ssh` of a home. -/
theorem authKeys_ne_sshDir (dir home : Str) :
    Join dir (lit "authorized_keys") ≠ Join home (lit ".ssh") := by
  obtain ⟨p1, h1, -⟩ := Join_plain dir (lit "authorized_keys") (by decide)
  obtain ⟨p2, h2, -⟩ := Join_plain home (lit ".ssh") (by decide)
  intro h
  have := congrArg List.getLast? h
  rw [h1, h2] at this
  simp [lit, List.getLast?_append] at this

/-- The temporary copy is never the `authorized_keys` file itself. -/
theorem tmpAuthKeys_ne_authKeys (tmpDir dir : Str) :
    Join tmpDir (lit "drlm_core_authorized_keys") ≠ Join dir (lit "authorized_keys") := by
  obtain ⟨p1, h1, -⟩ := Join_plain tmpDir (lit "drlm_core_authorized_keys") (by decide)
  obtain ⟨p2, h2, hp2⟩ := Join_plain dir (lit "authorized_keys") (by decide)
  intro h
  rw [h1, h2] at h
  have hs : lit "drlm_core_authorized_keys" = lit "drlm_core_" ++ lit "authorized_keys" := by
    decide
  rw [hs, ← List.append_assoc] at h
  have h3 := List.append_cancel_right h
  rcases hp2 with rfl | hp2
  · simp [lit] at h3
  · rw [← h3] at hp2
    simp [lit, List.getLast?_append] at hp2

/-- A result of a call with a value, an error and a client is such a triple. -/
theorem exists_triple {α β γ : Type} (x : (α × β) × γ) : ∃ a b c, x = ((a, b), c) :=
  ⟨x.1.1, x.1.2, x.2, rfl⟩

/-- Every run of `CmdSSHCopyID` on a Unix OS is one of the runs of `CopyIDRun`. -/
theorem copyID_run (w : Env OS Client) (os : OS) (usr key : Str) (c : Client)
    (hU : w.IsUnix os = true) :
    CopyIDRun w os usr key c (CmdSSHCopyID w os usr key (start c)).1
      (CmdSSHCopyID w os usr key (start c)).2.trace := by
  unfold CmdSSHCopyID
  simp only [hU, if_true, Proc.bind_apply, Proc.pure_apply, callValue, callError, callTempDir, start]
  obtain ⟨home, oe, c1, h1⟩ := exists_triple (w.CmdFSHome os c usr)
  simp only [h1, Proc.bind_apply, Proc.pure_apply, callValue, callError, callTempDir]
  rcases oe with _ | e
  swap
  · exact CopyIDRun.homeFailed home e c1 h1
  simp only [h1, Proc.bind_apply, Proc.pure_apply, callValue, callError, callTempDir]
  obtain ⟨grp, oe, c2, h2⟩ := exists_triple (w.CmdUserGroup os c1 usr)
  simp only [h2, Proc.bind_apply, Proc.pure_apply, callValue, callError, callTempDir]
  rcases oe with _ | e
  swap
  · exact CopyIDRun.groupFailed home grp e c1 c2 h1 h2
  simp only [Proc.bind_apply, Proc.pure_apply, callValue, callError, callTempDir]
  obtain ⟨d, oe, c3, h3⟩ := exists_triple (w.CmdFSCheckDir os c2 (Join home (lit ".ssh")))
  simp only [h3, Proc.bind_apply, Proc.pure_apply, callValue, callError, callTempDir]
  rcases oe with _ | e
  swap
  · exact CopyIDRun.checkDirFailed home grp d e c1 c2 c3 h1 h2 h3
  have wrap : ∀ (ret : Option GoError) (tr : List Event),
      (∃ rest, tr = [⟨.CmdFSHome usr, .bytes home⟩, ⟨.CmdUserGroup usr, .bytes grp⟩,
          ⟨.CmdFSCheckDir (Join home (lit ".ssh")), .flag d⟩] ++ rest ∧
        CopyIDTail usr key grp (Join home (lit ".ssh"))
          (Join (Join home (lit ".ssh")) (lit "authorized_keys"))
          (Join (w.CmdFSTempDir os) (lit "drlm_core_authorized_keys")) d ret rest) →
      CopyIDRun w os usr key c ret tr := by
    rintro ret tr ⟨rest, rfl, ht⟩
    exact CopyIDRun.checked home grp d c1 c2 c3 ret rest h1 h2 h3 ht
  apply wrap
  cases d <;>
    simp only [Proc.bind_apply, Proc.pure_apply, callValue, callError, callTempDir, Bool.not_false,
      Bool.not_true, if_true, if_false, Bool.false_eq_true, List.nil_append, List.cons_append]
  all_goals
    repeat' (split <;>
      simp only [*, Proc.bind_apply, Proc.pure_apply, callValue, callError, callTempDir,
        List.nil_append, List.cons_append])
  all_goals simp only [List.cons.injEq, true_and, exists_eq_left']
  all_goals first
    | exact CopyIDTail.mkdirFailed _
    | exact CopyIDTail.chownDirFailed _
    | exact CopyIDTail.chmodDirFailed _
    | exact CopyIDTail.checkFileFailed _ _
    | exact CopyIDTail.copyFailed _ _
    | exact CopyIDTail.appendFailed _ true _
    | exact CopyIDTail.appendFailed _ false _
    | exact CopyIDTail.moveFailed _ true _
    | exact CopyIDTail.moveFailed _ false _
    | exact CopyIDTail.chownFileFailed _ true _
    | exact CopyIDTail.chownFileFailed _ false _
    | exact CopyIDTail.chmodFileFailed _ true _
    | exact CopyIDTail.chmodFileFailed _ false _
    | exact CopyIDTail.success _ true
    | exact CopyIDTail.success _ false

/-- After `CmdFSHome`, `CmdUserGroup` and `CmdFSCheckDir` have succeeded, the
trace of `CmdSSHCopyID` is their three events and then one of the tails of
`CopyIDTail`. -/
theorem copyID_run_checked (w : Env OS Client) (os : OS) (c c1 c2 c3 : Client)
    (usr key home grp : Str) (d : Bool) (hOS : w.IsUnix os = true)
    (hHome : w.CmdFSHome os c usr = ((home, none), c1))
    (hGroup : w.CmdUserGroup os c1 usr = ((grp, none), c2))
    (hDir : w.CmdFSCheckDir os c2 (Join home (lit ".ssh")) = ((d, none), c3)) :
    ∃ rest, (CmdSSHCopyID w os usr key (start c)).2.trace =
        [⟨.CmdFSHome usr, .bytes home⟩, ⟨.CmdUserGroup usr, .bytes grp⟩,
         ⟨.CmdFSCheckDir (Join home (lit ".ssh")), .flag d⟩] ++ rest ∧
      CopyIDTail usr key grp (Join home (lit ".ssh"))
        (Join (Join home (lit ".ssh")) (lit "authorized_keys"))
        (Join (w.CmdFSTempDir os) (lit "drlm_core_authorized_keys")) d
        (CmdSSHCopyID w os usr key (start c)).1 rest := by
  have hrun := copyID_run w os usr key c hOS
  generalize (CmdSSHCopyID w os usr key (start c)).1 = ret at hrun ⊢
  generalize (CmdSSHCopyID w os usr key (start c)).2.trace = tr at hrun ⊢
  cases hrun with
  | homeFailed v e c1' h1 => rw [hHome] at h1; simp at h1
  | groupFailed home' v e c1' c2' h1 h2 =>
    rw [hHome] at h1
    simp only [Prod.mk.injEq, and_true, true_and] at h1
    obtain ⟨rfl, rfl⟩ := h1
    rw [hGroup] at h2
    simp at h2
  | checkDirFailed home' grp' v e c1' c2' c3' h1 h2 h3 =>
    rw [hHome] at h1
    simp only [Prod.mk.injEq, and_true, true_and] at h1
    obtain ⟨rfl, rfl⟩ := h1
    rw [hGroup] at h2
    simp only [Prod.mk.injEq, and_true, true_and] at h2
    obtain ⟨rfl, rfl⟩ := h2
    rw [hDir] at h3
    simp at h3
  | checked home' grp' d' c1' c2' c3' ret rest h1 h2 h3 ht =>
    rw [hHome] at h1
    simp only [Prod.mk.injEq, and_true, true_and] at h1
    obtain ⟨rfl, rfl⟩ := h1
    rw [hGroup] at h2
    simp only [Prod.mk.injEq, and_true, true_and] at h2
    obtain ⟨rfl, rfl⟩ := h2
    rw [hDir] at h3
    simp only [Prod.mk.injEq, and_true, true_and] at h3
    obtain ⟨rfl, rfl⟩ := h3
    exact ⟨rest, rfl, ht⟩

/-- The message of the error made by `fmt.Errorf` from a format that is a
context, `": "` and the verb `%v`. -/
theorem Errorf_context (format ctx : Str) (err : GoError)
    (hf : format = ctx ++ lit ": " ++ [37, 118]) (hc : 37 ∉ ctx ++ lit ": ") :
    (Errorf format err).Error = ctx ++ lit ": " ++ err.Error := by
  subst hf
  exact Errorf_Error ctx err hc

/-- In a run of `CmdSSHCopyID` no call but the last fails, and when the last
fails the procedure returns the error made from its context message. -/
theorem copyID_run_failure (w : Env OS Client) (os : OS) (usr key : Str) (c : Client)
    (ret : Option GoError) (tr : List Event) (h : CopyIDRun w os usr key c ret tr) :
    (∀ x ∈ tr.dropLast, ∀ e, x.reply ≠ .failed e) ∧
    (∀ ev e, tr.getLast? = some ev → ev.reply = .failed e →
      ∃ err, ret = some err ∧
        err.Error = stepContext (tr.dropLast.map Event.call) ev.call ++ lit ": " ++ e.Error) := by
  have fin : ∀ (format : Str) (e : GoError) (before : List Call) (call : Call),
      format = stepContext before call ++ lit ": " ++ [37, 118] →
      37 ∉ stepContext before call ++ lit ": " →
      ∃ err, some (Errorf format e) = some err ∧
        err.Error = stepContext before call ++ lit ": " ++ e.Error :=
    fun format e before call hf hc => ⟨_, rfl, Errorf_context format _ e hf hc⟩
  cases h with
  | homeFailed v e c1 h1 =>
    refine ⟨by simp, ?_⟩
    intro ev e' hl hf
    simp at hl
    subst hl
    simp at hf
    subst hf
    exact fin _ _ _ _ (by simp [stepContext]; decide) (by simp [stepContext]; decide)
  | groupFailed home v e c1 c2 h1 h2 =>
    refine ⟨by simp [List.dropLast], ?_⟩
    intro ev e' hl hf
    simp at hl
    subst hl
    simp at hf
    subst hf
    exact fin _ _ _ _ (by simp [stepContext]; decide) (by simp [stepContext]; decide)
  | checkDirFailed home grp v e c1 c2 c3 h1 h2 h3 =>
    refine ⟨by simp [List.dropLast], ?_⟩
    intro ev e' hl hf
    simp at hl
    subst hl
    simp at hf
    subst hf
    exact fin _ _ _ _ (by simp [stepContext]; decide) (by simp [stepContext]; decide)
  | checked home grp d c1 c2 c3 ret rest h1 h2 h3 ht =>
    cases ht <;> (try simp only [dirDone, fileDone]) <;> (try split_ifs)
    all_goals simp only [List.cons_append, List.nil_append]
    all_goals refine ⟨by simp [List.dropLast], ?_⟩
    all_goals
      intro ev e' hl hf
      simp at hl
      subst hl
      simp at hf
    all_goals
      subst hf
      exact fin _ _ _ _ (by simp [stepContext, checkedFile]; decide)
        (by simp [stepContext, checkedFile]; decide)

/-- A list whose last two elements are `a` and `b` ends with them. -/
theorem exists_append_pair {α : Type} (l : List α) (a b : α)
    (ha : l.dropLast.getLast? = some a) (hb : l.getLast? = some b) :
    ∃ pre, l = pre ++ [a, b] := by
  have h1 := List.dropLast_append_getLast? b (Option.mem_def.2 hb)
  have h2 := List.dropLast_append_getLast? a (Option.mem_def.2 ha)
  refine ⟨l.dropLast.dropLast, ?_⟩
  rw [← List.singleton_append (l := [b]), ← List.append_assoc, h2, h1]

/-- In a run of `CmdSSHCopyID` that ends with a `CmdFSChown` of an
`authorized_keys` file, the two calls before it are the append to the temporary
copy and the move of the copy over the file, both successful. -/
theorem copyID_run_chown_file (w : Env OS Client) (os : OS) (usr key : Str) (c : Client)
    (ret : Option GoError) (tr : List Event) (h : CopyIDRun w os usr key c ret tr)
    (ev : Event) (dir u g : Str) (hl : tr.getLast? = some ev)
    (hc : ev.call = .CmdFSChown (Join dir (lit "authorized_keys")) u g) :
    ∃ pre, tr.dropLast = pre ++
      [⟨.CmdFSAppendToFile (Join (w.CmdFSTempDir os) (lit "drlm_core_authorized_keys")) key,
          .done⟩,
       ⟨.CmdFSMove (Join (w.CmdFSTempDir os) (lit "drlm_core_authorized_keys"))
          (Join dir (lit "authorized_keys")), .done⟩] := by
  cases h with
  | homeFailed v e c1 h1 =>
    simp at hl
    subst hl
    simp at hc
  | groupFailed home v e c1 c2 h1 h2 =>
    simp at hl
    subst hl
    simp at hc
  | checkDirFailed home grp v e c1 c2 c3 h1 h2 h3 =>
    simp at hl
    subst hl
    simp at hc
  | checked home grp d c1 c2 c3 ret rest h1 h2 h3 ht =>
    have hne : Join home (lit ".ssh") ≠ Join dir (lit "authorized_keys") :=
      fun h => authKeys_ne_sshDir dir home h.symm
    revert hl hc
    cases ht <;> (try simp only [dirDone, fileDone]) <;> (try split_ifs)
    all_goals simp only [List.cons_append, List.nil_append]
    all_goals
      intro hc hl
      simp at hl
      subst hl
      simp [hne] at hc
    all_goals
      obtain ⟨hd, -, -⟩ := hc
      rw [← hd]
      exact exists_append_pair _ _ _ (by simp [List.dropLast]) (by simp [List.dropLast])

/-- An element that is not among the elements before the last is, wherever it
stands in the list, the last one. -/
theorem eq_dropLast_of_not_mem {α : Type} (tr pre post : List α) (x : α)
    (h : tr = pre ++ x :: post) (hx : x ∉ tr.dropLast) :
    post = [] ∧ tr.dropLast = pre ∧ tr.getLast? = some x := by
  subst h
  cases post with
  | nil =>
    refine ⟨rfl, ?_, ?_⟩
    · exact List.dropLast_concat
    · exact List.getLast?_concat _
  | cons p ps =>
    exfalso
    apply hx
    rw [List.dropLast_append_of_ne_nil _ (by simp)]
    simp [List.dropLast]

/-! ## The trace and the environment -/

/-- Replaying calls one list after another. -/
theorem replay_append (w : Env OS Client) (os : OS) (c : Client) (xs ys : List Call) :
    w.replay os c (xs ++ ys) =
      ((w.replay os c xs).1 ++ (w.replay os (w.replay os c xs).2 ys).1,
        (w.replay os (w.replay os c xs).2 ys).2) := by
  induction xs generalizing c with
  | nil => simp [Env.replay]
  | cons x xs ih => simp [Env.replay, ih]

/-- A replay gives one event for each call, for that call. -/
theorem replay_calls (w : Env OS Client) (os : OS) (c : Client) (xs : List Call) :
    (w.replay os c xs).1.map Event.call = xs := by
  induction xs generalizing c with
  | nil => simp [Env.replay]
  | cons x xs ih => simp [Env.replay, ih]

/-- A call recorded with what the environment returned for it keeps the run
honest. -/
theorem honest_record (w : Env OS Client) (os : OS) (c : Client) (r : Run Client)
    (call : Call) (inv : List Invocation) (h : Honest w os c r) :
    Honest w os c ⟨(w.answer os r.client call).2,
      r.trace ++ [⟨call, (w.answer os r.client call).1⟩], inv⟩ := by
  unfold Honest at h ⊢
  simp only [List.map_append, List.map_cons, List.map_nil, replay_append, h, Env.replay]

/-- The state in which a procedure is entered is honest. -/
theorem honest_start (w : Env OS Client) (os : OS) (c : Client) : Honest w os c (start c) := by
  simp [Honest, start, Env.replay]

/-- A traced call that returns a value and an error keeps the run honest, when
what it records is what `Env.answer` gives for the call. -/
theorem keepsHonest_callValue {α : Type} (w : Env OS Client) (os : OS) (c : Client)
    (call : Call) (reply : α → Reply) (act : Client → (α × Option GoError) × Client)
    (hact : ∀ c1, w.answer os c1 call =
      (match (act c1).1.2 with
        | some err => Reply.failed err
        | none => reply (act c1).1.1, (act c1).2)) :
    KeepsHonest w os c (callValue call reply act) := by
  refine ⟨fun r h => ?_⟩
  have := honest_record w os c r call (r.invoked ++ [.onClient call]) h
  rw [hact] at this
  exact this

/-- A traced call that returns an error only keeps the run honest, when what it
records is what `Env.answer` gives for the call. -/
theorem keepsHonest_callError (w : Env OS Client) (os : OS) (c : Client)
    (call : Call) (act : Client → Option GoError × Client)
    (hact : ∀ c1, w.answer os c1 call =
      (match (act c1).1 with
        | some err => Reply.failed err
        | none => Reply.done, (act c1).2)) :
    KeepsHonest w os c (callError call act) := by
  refine ⟨fun r h => ?_⟩
  have := honest_record w os c r call (r.invoked ++ [.onClient call]) h
  rw [hact] at this
  exact this

/-- The invocation of `CmdFSTempDir` leaves trace and client as they are. -/
theorem keepsHonest_callTempDir (w : Env OS Client) (os : OS) (c : Client) :
    KeepsHonest w os c (callTempDir w os) :=
  ⟨fun _ h => h⟩

/-- Returning a value keeps the run honest. -/
theorem keepsHonest_pure {α : Type} (w : Env OS Client) (os : OS) (c : Client) (a : α) :
    KeepsHonest w os c (pure a : Proc Client α) :=
  ⟨fun _ h => h⟩

/-- One step after another keeps the run honest when each does. -/
theorem keepsHonest_bind {α β : Type} (w : Env OS Client) (os : OS) (c : Client)
    (m : Proc Client α) (f : α → Proc Client β) (hm : KeepsHonest w os c m)
    (hf : ∀ a, KeepsHonest w os c (f a)) : KeepsHonest w os c (m >>= f) :=
  ⟨fun r h => (hf (m r).1).keeps (m r).2 (hm.keeps r h)⟩

/-- `CmdSSHCopyID` keeps the run honest. -/
theorem keepsHonest_copyID (w : Env OS Client) (os : OS) (usr key : Str) (c : Client) :
    KeepsHonest w os c (CmdSSHCopyID w os usr key) := by
  unfold CmdSSHCopyID
  repeat' (first
    | apply keepsHonest_pure
    | apply keepsHonest_callTempDir
    | apply keepsHonest_callError w os c _ _ (fun _ => rfl)
    | apply keepsHonest_callValue w os c _ _ _ (fun _ => rfl)
    | apply keepsHonest_bind
    | intro _
    | split)

/-- The run of `CmdSSHCopyID` is honest: the trace it leaves holds what the
environment returned to each call, made on the client as the call before left
it, and the client it leaves is the one the last call left. -/
theorem copyID_honest (w : Env OS Client) (os : OS) (usr key : Str) (c : Client) :
    Honest w os c (CmdSSHCopyID w os usr key (start c)).2 :=
  (keepsHonest_copyID w os usr key c).keeps (start c) (honest_start w os c)

/-- In an honest run whose trace is `pre`, `ev` and `post`, the events `pre` are
what the environment returned to their calls, the reply of `ev` is what the
environment returned to its call on the client that `pre` left, and when
nothing follows `ev` the client of the run is the one that call left. -/
theorem honest_split (w : Env OS Client) (os : OS) (c : Client) (r : Run Client)
    (pre post : List Event) (ev : Event) (h : Honest w os c r)
    (ht : r.trace = pre ++ ev :: post) :
    (w.replay os c (pre.map Event.call)).1 = pre ∧
    ev.reply = (w.answer os (w.replay os c (pre.map Event.call)).2 ev.call).1 ∧
    (post = [] →
      r.client = (w.answer os (w.replay os c (pre.map Event.call)).2 ev.call).2) := by
  unfold Honest at h
  rw [ht, List.map_append, List.map_cons, replay_append] at h
  have h1 := congrArg Prod.fst h
  have h2 := congrArg Prod.snd h
  simp only [Env.replay] at h1 h2
  have hlen : (w.replay os c (pre.map Event.call)).1.length = pre.length := by
    have := congrArg List.length (replay_calls w os c (pre.map Event.call))
    simpa using this
  obtain ⟨hp, hq⟩ := List.append_inj h1 hlen
  rw [List.cons.injEq] at hq
  refine ⟨hp, ?_, ?_⟩
  · have := congrArg Event.reply hq.1
    exact this.symm
  · intro hpost
    subst hpost
    simpa [Env.replay] using h2.symm

/-! ## The claims -/

/-- C2: on an OS that is not Unix each of the three entry points returns
exactly `ErrUnsupportedOS` (with the empty key list, the empty string, nothing
else) and leaves the run as it found it: the client untouched, the trace of
calls empty and no helper invoked. -/
theorem unsupported_os_returns_without_call (w : Env OS Client) (os : OS) (c : Client)
    (host : Str) (port : Int) (usr key : Str) (hOS : w.IsUnix os = false) :
    CmdSSHGetHostKeys w os host port (start c) = (([], some w.ErrUnsupportedOS), ⟨c, [], []⟩) ∧
    CmdSSHGetKeysPath w os usr (start c) = (([], some w.ErrUnsupportedOS), ⟨c, [], []⟩) ∧
    CmdSSHCopyID w os usr key (start c) = (some w.ErrUnsupportedOS, ⟨c, [], []⟩) := by
  simp [CmdSSHGetHostKeys, CmdSSHGetKeysPath, CmdSSHCopyID, hOS, Proc.pure_apply, start]

/-- Witness for C2: the example OS `windows` is not Unix. -/
theorem unsupported_os_returns_without_call_witness :
    (demoEnv none true true []).IsUnix (lit "windows") = false ∧
    CmdSSHGetHostKeys (demoEnv none true true []) (lit "windows") (lit "h") 22 (start 0) =
      (([], some (demoEnv none true true []).ErrUnsupportedOS), ⟨0, [], []⟩) ∧
    CmdSSHGetKeysPath (demoEnv none true true []) (lit "windows") (lit "u") (start 0) =
      (([], some (demoEnv none true true []).ErrUnsupportedOS), ⟨0, [], []⟩) ∧
    CmdSSHCopyID (demoEnv none true true []) (lit "windows") (lit "u") (lit "k") (start 0) =
      (some (demoEnv none true true []).ErrUnsupportedOS, ⟨0, [], []⟩) :=
  ⟨by decide, unsupported_os_returns_without_call (demoEnv none true true []) (lit "windows") 0
    (lit "h") 22 (lit "u") (lit "k") (by decide)⟩

/-- C6: on a Unix OS `CmdSSHGetKeysPath` makes the one call `CmdFSHome(usr)`
and no other; when that call succeeds with `home` it returns
`(filepath.Join(home, ".ssh"), nil)`, and when it fails with `e` it returns the
empty string and the error made from `e`, which is not nil. -/
theorem getKeysPath_unix (w : Env OS Client) (os : OS) (c : Client) (usr : Str)
    (hOS : w.IsUnix os = true) :
    (CmdSSHGetKeysPath w os usr (start c)).2.trace.map Event.call = [.CmdFSHome usr] ∧
    (CmdSSHGetKeysPath w os usr (start c)).2.client = (w.CmdFSHome os c usr).2 ∧
    (∀ home c1, w.CmdFSHome os c usr = ((home, none), c1) →
      CmdSSHGetKeysPath w os usr (start c) =
        ((Join home (lit ".ssh"), none),
          ⟨c1, [⟨.CmdFSHome usr, .bytes home⟩], [.onClient (.CmdFSHome usr)]⟩)) ∧
    (∀ v e c1, w.CmdFSHome os c usr = ((v, some e), c1) →
      CmdSSHGetKeysPath w os usr (start c) =
        (([], some (Errorf (lit "error getting the public key: %v") e)),
          ⟨c1, [⟨.CmdFSHome usr, .failed e⟩], [.onClient (.CmdFSHome usr)]⟩)) := by
  obtain ⟨home, oe, c1, h1⟩ := exists_triple (w.CmdFSHome os c usr)
  cases oe <;>
    simp [CmdSSHGetKeysPath, hOS, Proc.bind_apply, Proc.pure_apply, callValue, start, h1]

/-- Witness for C6: the home of `u` is found, or the call fails. -/
theorem getKeysPath_unix_witness :
    (demoEnv none true true []).IsUnix (lit "linux") = true ∧
    (CmdSSHGetKeysPath (demoEnv none true true []) (lit "linux") (lit "u") (start 0)).1 =
      (lit "/home/u/.ssh", none) ∧
    (CmdSSHGetKeysPath (demoEnv (some 0) true true []) (lit "linux") (lit "u") (start 0)).1 =
      ([], some (.errorf (lit "error getting the public key: exit status 1"))) ∧
    (CmdSSHGetKeysPath (demoEnv none true true []) (lit "linux") (lit "u")
      (start 0)).2.trace.map Event.call = [.CmdFSHome (lit "u")] :=
  ⟨by decide, by decide, by decide,
    (getKeysPath_unix (demoEnv none true true []) (lit "linux") 0 (lit "u") (by decide)).1⟩

/-- C1, as amended: on a Unix OS, when `Exec` succeeds with the output `out`,
`CmdSSHGetHostKeys` makes that one call and returns a nil error with the lines
of `strings.TrimSpace(out)` (split on the line feed) that do not begin with
`"# "`, all of them and in their order, so that no returned line begins with
`"# "`. -/
theorem getHostKeys_lines_of_trimmed (w : Env OS Client) (os : OS) (c c1 : Client)
    (host : Str) (port : Int) (out : Str) (hOS : w.IsUnix os = true)
    (hExec : w.Exec c (lit "ssh-keyscan") [lit "-p", Itoa port, host] = ((out, none), c1)) :
    CmdSSHGetHostKeys w os host port (start c) =
      (((Split 10 (TrimSpace out)).filter (fun l => !HasPrefix l (lit "# ")), none),
        ⟨c1, [⟨.Exec (lit "ssh-keyscan") [lit "-p", Itoa port, host], .bytes out⟩],
          [.onClient (.Exec (lit "ssh-keyscan") [lit "-p", Itoa port, host])]⟩) ∧
    (∀ l ∈ (CmdSSHGetHostKeys w os host port (start c)).1.1,
      HasPrefix l (lit "# ") = false ∧ 10 ∉ l) ∧
    [10].intercalate (Split 10 (TrimSpace out)) = TrimSpace out := by
  have h : CmdSSHGetHostKeys w os host port (start c) =
      (((Split 10 (TrimSpace out)).filter (fun l => !HasPrefix l (lit "# ")), none),
        ⟨c1, [⟨.Exec (lit "ssh-keyscan") [lit "-p", Itoa port, host], .bytes out⟩],
          [.onClient (.Exec (lit "ssh-keyscan") [lit "-p", Itoa port, host])]⟩) := by
    simp [CmdSSHGetHostKeys, hOS, Proc.bind_apply, Proc.pure_apply, callValue, start, hExec,
      hostKeysLoop_eq_filter]
  refine ⟨h, ?_, intercalate_Split 10 _⟩
  rw [h]
  intro l hl
  rw [List.mem_filter] at hl
  exact ⟨by simpa using hl.2, not_mem_of_mem_Split 10 _ l hl.1⟩

/-- Witness for C1 as amended: a comment line and a key line, each ended by a
line feed. -/
theorem getHostKeys_lines_of_trimmed_witness :
    (demoEnv none true true (lit "# c\nk\n")).IsUnix (lit "linux") = true ∧
    CmdSSHGetHostKeys (demoEnv none true true (lit "# c\nk\n")) (lit "linux") (lit "h") 22
        (start 0) =
      (((Split 10 (TrimSpace (lit "# c\nk\n"))).filter (fun l => !HasPrefix l (lit "# ")), none),
        ⟨1, [⟨.Exec (lit "ssh-keyscan") [lit "-p", Itoa 22, lit "h"], .bytes (lit "# c\nk\n")⟩],
          [.onClient (.Exec (lit "ssh-keyscan") [lit "-p", Itoa 22, lit "h"])]⟩) :=
  ⟨by decide, (getHostKeys_lines_of_trimmed (demoEnv none true true (lit "# c\nk\n")) (lit "linux")
    0 1 (lit "h") 22 (lit "# c\nk\n") (by decide) (by decide)).1⟩

/-- Counterexample to C1 as written: for the output `k` followed by a line feed the lines of
the output are `k` and the empty line, neither begins with `"# "`, and
`CmdSSHGetHostKeys` returns the one line `k`. -/
theorem getHostKeys_lines_counterexample :
    (demoEnv none true true (lit "k\n")).IsUnix (lit "linux") = true ∧
    (demoEnv none true true (lit "k\n")).Exec 0 (lit "ssh-keyscan")
      [lit "-p", Itoa 22, lit "h"] = ((lit "k\n", none), 1) ∧
    (Split 10 (lit "k\n")).filter (fun l => !HasPrefix l (lit "# ")) = [lit "k", []] ∧
    (CmdSSHGetHostKeys (demoEnv none true true (lit "k\n")) (lit "linux") (lit "h") 22
      (start 0)).1 = ([lit "k"], none) ∧
    (CmdSSHGetHostKeys (demoEnv none true true (lit "k\n")) (lit "linux") (lit "h") 22
      (start 0)).1.1 ≠ (Split 10 (lit "k\n")).filter (fun l => !HasPrefix l (lit "# ")) := by
  decide

/-- No run of `CmdSSHCopyID` on a Unix OS makes more than twelve calls. -/
theorem copyID_trace_length (w : Env OS Client) (os : OS) (usr key : Str) (c : Client)
    (ret : Option GoError) (tr : List Event) (h : CopyIDRun w os usr key c ret tr) :
    tr.length ≤ 12 := by
  cases h with
  | homeFailed => simp
  | groupFailed => simp
  | checkDirFailed => simp
  | checked home grp d c1 c2 c3 ret rest h1 h2 h3 ht =>
    cases ht <;> (try simp only [dirDone, fileDone]) <;> (try split_ifs) <;> simp

/-- `CmdSSHGetHostKeys` makes at most one call. -/
theorem getHostKeys_trace_length (w : Env OS Client) (os : OS) (c : Client)
    (host : Str) (port : Int) :
    (CmdSSHGetHostKeys w os host port (start c)).2.trace.length ≤ 1 := by
  obtain ⟨out, oe, c1, h1⟩ :=
    exists_triple (w.Exec c (lit "ssh-keyscan") [lit "-p", Itoa port, host])
  cases hOS : w.IsUnix os <;> cases oe <;>
    simp [CmdSSHGetHostKeys, hOS, Proc.bind_apply, Proc.pure_apply, callValue, start, h1]

/-- `CmdSSHGetKeysPath` makes at most one call. -/
theorem getKeysPath_trace_length (w : Env OS Client) (os : OS) (c : Client) (usr : Str) :
    (CmdSSHGetKeysPath w os usr (start c)).2.trace.length ≤ 1 := by
  obtain ⟨home, oe, c1, h1⟩ := exists_triple (w.CmdFSHome os c usr)
  cases hOS : w.IsUnix os <;> cases oe <;>
    simp [CmdSSHGetKeysPath, hOS, Proc.bind_apply, Proc.pure_apply, callValue, start, h1]

/-- C5, as amended: whatever the OS, the client and the arguments,
`CmdSSHGetHostKeys` and `CmdSSHGetKeysPath` make at most one call on the
client and `CmdSSHCopyID` makes at most twelve. -/
theorem remote_invocations_bound (w : Env OS Client) (os : OS) (c : Client)
    (host : Str) (port : Int) (usr key : Str) :
    (CmdSSHGetHostKeys w os host port (start c)).2.trace.length ≤ 1 ∧
    (CmdSSHGetKeysPath w os usr (start c)).2.trace.length ≤ 1 ∧
    (CmdSSHCopyID w os usr key (start c)).2.trace.length ≤ 12 := by
  refine ⟨getHostKeys_trace_length w os c host port, getKeysPath_trace_length w os c usr, ?_⟩
  cases hOS : w.IsUnix os
  · simp [CmdSSHCopyID, hOS, Proc.pure_apply, start]
  · exact copyID_trace_length w os usr key c _ _ (copyID_run w os usr key c hOS)

/-- Counterexample to C5 as written: on a Unix OS where the directory `.ssh` is
missing and the file `authorized_keys` exists, a run of `CmdSSHCopyID` in which
every helper succeeds returns nil after twelve calls, more than two. -/
theorem remote_invocations_counterexample :
    (demoEnv none false true []).IsUnix (lit "linux") = true ∧
    (CmdSSHCopyID (demoEnv none false true []) (lit "linux") (lit "u") (lit "k")
      (start 0)).1 = none ∧
    (CmdSSHCopyID (demoEnv none false true []) (lit "linux") (lit "u") (lit "k")
      (start 0)).2.trace.length = 12 ∧
    ¬ (CmdSSHCopyID (demoEnv none false true []) (lit "linux") (lit "u") (lit "k")
      (start 0)).2.trace.length ≤ 2 := by
  decide

/-- C4: in a run of `CmdSSHCopyID` on a Unix OS, let a call of the trace be one
to which the environment returned an error `e` (the helper, called on the
client as the calls before it left it, returned `e`). Then the trace records
that failure, the call is the last of the trace (nothing is called after it,
so nothing is retried or undone) and the first to fail, the calls before it
are recorded with what the environment returned, the client is left as that
call left it, and the procedure returns an error, not nil, whose message is the
context message of the step, `": "` and the text of `e`. In particular a
failed `CmdFSChown` of an `authorized_keys` file comes right after the
successful `CmdFSAppendToFile` and `CmdFSMove`. -/
theorem copyID_stops_at_first_failure (w : Env OS Client) (os : OS) (c : Client)
    (usr key : Str) (pre post : List Event) (ev : Event) (e : GoError)
    (hOS : w.IsUnix os = true)
    (hTrace : (CmdSSHCopyID w os usr key (start c)).2.trace = pre ++ ev :: post)
    (hFail : (w.answer os (w.replay os c (pre.map Event.call)).2 ev.call).1 = .failed e) :
    ev.reply = .failed e ∧
    post = [] ∧
    (∀ x ∈ pre, ∀ e', x.reply ≠ .failed e') ∧
    (w.replay os c (pre.map Event.call)).1 = pre ∧
    (CmdSSHCopyID w os usr key (start c)).2.client =
      (w.answer os (w.replay os c (pre.map Event.call)).2 ev.call).2 ∧
    (∃ err, (CmdSSHCopyID w os usr key (start c)).1 = some err ∧
      err.Error = stepContext (pre.map Event.call) ev.call ++ lit ": " ++ e.Error) ∧
    (∀ dir u g, ev.call = .CmdFSChown (Join dir (lit "authorized_keys")) u g →
      ∃ pre', pre = pre' ++
        [⟨.CmdFSAppendToFile (Join (w.CmdFSTempDir os) (lit "drlm_core_authorized_keys")) key,
            .done⟩,
         ⟨.CmdFSMove (Join (w.CmdFSTempDir os) (lit "drlm_core_authorized_keys"))
            (Join dir (lit "authorized_keys")), .done⟩]) := by
  obtain ⟨hpre, hrep, hcl⟩ := honest_split w os c _ pre post ev
    (copyID_honest w os usr key c) hTrace
  have hFail2 : ev.reply = .failed e := hrep.trans hFail
  have hrun := copyID_run w os usr key c hOS
  obtain ⟨hok, herr⟩ := copyID_run_failure w os usr key c _ _ hrun
  have hmem : ev ∉ (CmdSSHCopyID w os usr key (start c)).2.trace.dropLast :=
    fun h => hok ev h e hFail2
  obtain ⟨hpost, hdrop, hlast⟩ := eq_dropLast_of_not_mem _ pre post ev hTrace hmem
  rw [hdrop] at hok herr
  refine ⟨hFail2, hpost, hok, hpre, hcl hpost, herr ev e hlast hFail2, ?_⟩
  intro dir u g hc
  have := copyID_run_chown_file w os usr key c _ _ hrun ev dir u g hlast hc
  rwa [hdrop] at this

/-- Witness for C4: in one run the first call, `CmdFSHome`, fails and nothing
else is called; in another the eleventh call, the `CmdFSChown` of
`authorized_keys`, fails after ten successful calls. -/
theorem copyID_stops_at_first_failure_witness :
    (demoEnv (some 0) false true []).IsUnix (lit "linux") = true ∧
    (demoEnv (some 0) false true []).CmdFSHome (lit "linux") 0 (lit "u") =
      ((lit "/home/u", some demoError), 1) ∧
    CmdSSHCopyID (demoEnv (some 0) false true []) (lit "linux") (lit "u") (lit "k") (start 0) =
      (some (.errorf (lit "error copying the SSH key: exit status 1")),
        ⟨1, [⟨.CmdFSHome (lit "u"), .failed demoError⟩], [.onClient (.CmdFSHome (lit "u"))]⟩) ∧
    (∃ err, (CmdSSHCopyID (demoEnv (some 0) false true []) (lit "linux") (lit "u") (lit "k")
        (start 0)).1 = some err ∧
      err.Error = lit "error copying the SSH key" ++ lit ": " ++ lit "exit status 1") ∧
    (demoEnv (some 10) false true []).CmdFSChown (lit "linux") 10
      (lit "/home/u/.ssh/authorized_keys") (lit "u") (lit "users") = (some demoError, 11) ∧
    (CmdSSHCopyID (demoEnv (some 10) false true []) (lit "linux") (lit "u") (lit "k")
      (start 0)).2.trace.length = 11 ∧
    (CmdSSHCopyID (demoEnv (some 10) false true []) (lit "linux") (lit "u") (lit "k")
      (start 0)).2.client = 11 ∧
    (∃ err, (CmdSSHCopyID (demoEnv (some 10) false true []) (lit "linux") (lit "u") (lit "k")
        (start 0)).1 = some err ∧
      err.Error = lit "error changing the authorized_keys owner" ++ lit ": " ++
        lit "exit status 1") := by
  have h0 := copyID_stops_at_first_failure (demoEnv (some 0) false true []) (lit "linux") 0
    (lit "u") (lit "k") [] [] ⟨.CmdFSHome (lit "u"), .failed demoError⟩
    demoError (by decide) (by decide) (by decide)
  have h := copyID_stops_at_first_failure (demoEnv (some 10) false true []) (lit "linux") 0
    (lit "u") (lit "k")
    (CmdSSHCopyID (demoEnv (some 10) false true []) (lit "linux") (lit "u") (lit "k")
      (start 0)).2.trace.dropLast []
    ⟨.CmdFSChown (lit "/home/u/.ssh/authorized_keys") (lit "u") (lit "users"), .failed demoError⟩
    demoError (by decide) (by decide) (by decide)
  exact ⟨by decide, by decide, by decide, h0.2.2.2.2.2.1, by decide, by decide, by decide,
    h.2.2.2.2.2.1⟩

/-- C7: a run of `CmdSSHCopyID` on a Unix OS that returns nil never appends the
key to `authorized_keys` itself. `CmdFSHome` returned some `home`,
`CmdUserGroup`, called on the client as `CmdFSHome` left it, returned some
`grp`, `CmdFSCheckDir` reported some `d`, and after these three calls and the
creation of the directory when it was missing (`d` false) the trace is
`CmdFSCheckFile(authKeys)`, whose report is `f`, `CmdFSCopy(authKeys, tmp)`
exactly when `f` is true, then `CmdFSAppendToFile(tmp, key)`,
`CmdFSMove(tmp, authKeys)`, `CmdFSChown(authKeys, usr, grp)`,
`CmdFSChmod(authKeys, 0600)`. Every event of the trace holds what the
environment returned to the call, made on the client as the call before left
it, the client of the run is the one the last call left, and `tmp` is another
path than `authKeys`. -/
theorem copyID_success_trace (w : Env OS Client) (os : OS) (c : Client) (usr key : Str)
    (hOS : w.IsUnix os = true) (hRet : (CmdSSHCopyID w os usr key (start c)).1 = none) :
    ∃ home grp d f c1 c2 c3,
      w.CmdFSHome os c usr = ((home, none), c1) ∧
      w.CmdUserGroup os c1 usr = ((grp, none), c2) ∧
      w.CmdFSCheckDir os c2 (Join home (lit ".ssh")) = ((d, none), c3) ∧
      (w.CmdFSCheckFile os
        (w.replay os c3 ((dirDone (Join home (lit ".ssh")) usr grp d).map Event.call)).2
        (Join (Join home (lit ".ssh")) (lit "authorized_keys"))).1 = (f, none) ∧
      (CmdSSHCopyID w os usr key (start c)).2.trace =
        [⟨.CmdFSHome usr, .bytes home⟩, ⟨.CmdUserGroup usr, .bytes grp⟩,
         ⟨.CmdFSCheckDir (Join home (lit ".ssh")), .flag d⟩] ++
        dirDone (Join home (lit ".ssh")) usr grp d ++
        [⟨.CmdFSCheckFile (Join (Join home (lit ".ssh")) (lit "authorized_keys")), .flag f⟩] ++
        (if f then
          [⟨.CmdFSCopy (Join (Join home (lit ".ssh")) (lit "authorized_keys"))
            (Join (w.CmdFSTempDir os) (lit "drlm_core_authorized_keys")), .done⟩]
         else []) ++
        [⟨.CmdFSAppendToFile (Join (w.CmdFSTempDir os) (lit "drlm_core_authorized_keys")) key,
            .done⟩,
         ⟨.CmdFSMove (Join (w.CmdFSTempDir os) (lit "drlm_core_authorized_keys"))
            (Join (Join home (lit ".ssh")) (lit "authorized_keys")), .done⟩,
         ⟨.CmdFSChown (Join (Join home (lit ".ssh")) (lit "authorized_keys")) usr grp, .done⟩,
         ⟨.CmdFSChmod (Join (Join home (lit ".ssh")) (lit "authorized_keys")) 0o600, .done⟩] ∧
      w.replay os c ((CmdSSHCopyID w os usr key (start c)).2.trace.map Event.call) =
        ((CmdSSHCopyID w os usr key (start c)).2.trace,
          (CmdSSHCopyID w os usr key (start c)).2.client) ∧
      Join (w.CmdFSTempDir os) (lit "drlm_core_authorized_keys") ≠
        Join (Join home (lit ".ssh")) (lit "authorized_keys") ∧
      ∀ ev ∈ (CmdSSHCopyID w os usr key (start c)).2.trace, ∀ data,
        ev.call ≠ .CmdFSAppendToFile (Join (Join home (lit ".ssh")) (lit "authorized_keys")) data
    := by
  have hrun := copyID_run w os usr key c hOS
  have hon := copyID_honest w os usr key c
  rw [hRet] at hrun
  generalize (CmdSSHCopyID w os usr key (start c)).2 = run at hrun hon ⊢
  obtain ⟨cl, tr, inv⟩ := run
  simp only at hrun hon ⊢
  cases hrun with
  | checked home grp d c1 c2 c3 ret rest h1 h2 h3 ht =>
    have hne := tmpAuthKeys_ne_authKeys (w.CmdFSTempDir os) (Join home (lit ".ssh"))
    cases ht with
    | success d f =>
      refine ⟨home, grp, d, f, c1, c2, c3, h1, h2, h3, ?_, ?_, hon, hne, ?_⟩
      · have hs := honest_split w os c _
          ([⟨.CmdFSHome usr, .bytes home⟩, ⟨.CmdUserGroup usr, .bytes grp⟩,
            ⟨.CmdFSCheckDir (Join home (lit ".ssh")), .flag d⟩] ++
            dirDone (Join home (lit ".ssh")) usr grp d)
          ((if f then
            [⟨.CmdFSCopy (Join (Join home (lit ".ssh")) (lit "authorized_keys"))
              (Join (w.CmdFSTempDir os) (lit "drlm_core_authorized_keys")), .done⟩]
            else []) ++
          [⟨.CmdFSAppendToFile (Join (w.CmdFSTempDir os) (lit "drlm_core_authorized_keys")) key,
              .done⟩,
           ⟨.CmdFSMove (Join (w.CmdFSTempDir os) (lit "drlm_core_authorized_keys"))
              (Join (Join home (lit ".ssh")) (lit "authorized_keys")), .done⟩,
           ⟨.CmdFSChown (Join (Join home (lit ".ssh")) (lit "authorized_keys")) usr grp, .done⟩,
           ⟨.CmdFSChmod (Join (Join home (lit ".ssh")) (lit "authorized_keys")) 0o600, .done⟩])
          ⟨.CmdFSCheckFile (Join (Join home (lit ".ssh")) (lit "authorized_keys")), .flag f⟩
          hon (by simp [fileDone])
        have hrep := hs.2.1
        simp only [List.map_append, List.map_cons, List.map_nil, replay_append, Env.replay,
          Env.answer, h1, h2, h3, List.append_eq, List.nil_append] at hrep
        generalize (w.CmdFSCheckFile os
          (w.replay os c3 ((dirDone (Join home (lit ".ssh")) usr grp d).map Event.call)).2
          (Join (Join home (lit ".ssh")) (lit "authorized_keys"))).1 = res at hrep ⊢
        obtain ⟨v, oe⟩ := res
        cases oe with
        | none =>
          simp only [Reply.flag.injEq] at hrep
          rw [hrep]
        | some err => simp at hrep
      · simp [fileDone]
      · simp only [dirDone, fileDone]
        split_ifs <;> simp [hne]

/-- Witness for C7: the directory is missing, the file exists, every call
succeeds; the whole run computed, and the group of the final `CmdFSChown` is
the one `CmdUserGroup` returned. -/
theorem copyID_success_trace_witness :
    (demoEnv none false true []).IsUnix (lit "linux") = true ∧
    CmdSSHCopyID (demoEnv none false true []) (lit "linux") (lit "u") (lit "k") (start 0) =
      (none,
        ⟨12,
         [⟨.CmdFSHome (lit "u"), .bytes (lit "/home/u")⟩,
          ⟨.CmdUserGroup (lit "u"), .bytes (lit "users")⟩,
          ⟨.CmdFSCheckDir (lit "/home/u/.ssh"), .flag false⟩,
          ⟨.CmdFSMkdir (lit "/home/u/.ssh"), .done⟩,
          ⟨.CmdFSChown (lit "/home/u/.ssh") (lit "u") (lit "users"), .done⟩,
          ⟨.CmdFSChmod (lit "/home/u/.ssh") 0o700, .done⟩,
          ⟨.CmdFSCheckFile (lit "/home/u/.ssh/authorized_keys"), .flag true⟩,
          ⟨.CmdFSCopy (lit "/home/u/.ssh/authorized_keys")
            (lit "/tmp/drlm_core_authorized_keys"), .done⟩,
          ⟨.CmdFSAppendToFile (lit "/tmp/drlm_core_authorized_keys") (lit "k"), .done⟩,
          ⟨.CmdFSMove (lit "/tmp/drlm_core_authorized_keys")
            (lit "/home/u/.ssh/authorized_keys"), .done⟩,
          ⟨.CmdFSChown (lit "/home/u/.ssh/authorized_keys") (lit "u") (lit "users"), .done⟩,
          ⟨.CmdFSChmod (lit "/home/u/.ssh/authorized_keys") 0o600, .done⟩],
         [.onClient (.CmdFSHome (lit "u")),
          .onClient (.CmdUserGroup (lit "u")),
          .onClient (.CmdFSCheckDir (lit "/home/u/.ssh")),
          .onClient (.CmdFSMkdir (lit "/home/u/.ssh")),
          .onClient (.CmdFSChown (lit "/home/u/.ssh") (lit "u") (lit "users")),
          .onClient (.CmdFSChmod (lit "/home/u/.ssh") 0o700),
          .CmdFSTempDir,
          .onClient (.CmdFSCheckFile (lit "/home/u/.ssh/authorized_keys")),
          .onClient (.CmdFSCopy (lit "/home/u/.ssh/authorized_keys")
            (lit "/tmp/drlm_core_authorized_keys")),
          .onClient (.CmdFSAppendToFile (lit "/tmp/drlm_core_authorized_keys") (lit "k")),
          .onClient (.CmdFSMove (lit "/tmp/drlm_core_authorized_keys")
            (lit "/home/u/.ssh/authorized_keys")),
          .onClient (.CmdFSChown (lit "/home/u/.ssh/authorized_keys") (lit "u") (lit "users")),
          .onClient (.CmdFSChmod (lit "/home/u/.ssh/authorized_keys") 0o600)]⟩) ∧
    ∃ home grp c1 c2,
      (demoEnv none false true []).CmdFSHome (lit "linux") 0 (lit "u") = ((home, none), c1) ∧
      (demoEnv none false true []).CmdUserGroup (lit "linux") c1 (lit "u") = ((grp, none), c2) ∧
      (⟨.CmdFSChown (Join (Join home (lit ".ssh")) (lit "authorized_keys")) (lit "u") grp,
          .done⟩ : Event) ∈
        (CmdSSHCopyID (demoEnv none false true []) (lit "linux") (lit "u") (lit "k")
          (start 0)).2.trace := by
  refine ⟨by decide, by decide, ?_⟩
  obtain ⟨home, grp, d, f, c1, c2, c3, h1, h2, -, -, htr, -⟩ :=
    copyID_success_trace (demoEnv none false true []) (lit "linux") 0 (lit "u") (lit "k")
      (by decide) (by decide)
  refine ⟨home, grp, c1, c2, h1, h2, ?_⟩
  rw [htr]
  simp

/-- C3, as amended: on a Unix OS, when `CmdFSHome` and `CmdUserGroup` succeed
and `CmdFSCheckDir` reports that `filepath.Join(home, ".ssh")` exists, the
next call of `CmdSSHCopyID` on the client after `CmdFSCheckDir` is
`CmdFSCheckFile` on the `authorized_keys` path, the one helper invoked between
the two is `CmdFSTempDir`, which takes no client, and no call of the whole run
is a `CmdFSMkdir`, or a `CmdFSChown` or `CmdFSChmod` on the directory `.ssh`. -/
theorem copyID_existing_dir_not_created (w : Env OS Client) (os : OS) (c c1 c2 c3 : Client)
    (usr key home grp : Str) (hOS : w.IsUnix os = true)
    (hHome : w.CmdFSHome os c usr = ((home, none), c1))
    (hGroup : w.CmdUserGroup os c1 usr = ((grp, none), c2))
    (hDir : w.CmdFSCheckDir os c2 (Join home (lit ".ssh")) = ((true, none), c3)) :
    (∃ r rest, (CmdSSHCopyID w os usr key (start c)).2.trace =
      [⟨.CmdFSHome usr, .bytes home⟩, ⟨.CmdUserGroup usr, .bytes grp⟩,
       ⟨.CmdFSCheckDir (Join home (lit ".ssh")), .flag true⟩,
       ⟨.CmdFSCheckFile (Join (Join home (lit ".ssh")) (lit "authorized_keys")), r⟩] ++ rest) ∧
    (∃ more, (CmdSSHCopyID w os usr key (start c)).2.invoked =
      [.onClient (.CmdFSHome usr), .onClient (.CmdUserGroup usr),
       .onClient (.CmdFSCheckDir (Join home (lit ".ssh"))),
       .CmdFSTempDir,
       .onClient (.CmdFSCheckFile (Join (Join home (lit ".ssh")) (lit "authorized_keys")))] ++
        more) ∧
    (∀ ev ∈ (CmdSSHCopyID w os usr key (start c)).2.trace,
      (∀ p, ev.call ≠ .CmdFSMkdir p) ∧
      (∀ u g, ev.call ≠ .CmdFSChown (Join home (lit ".ssh")) u g) ∧
      (∀ m, ev.call ≠ .CmdFSChmod (Join home (lit ".ssh")) m)) := by
  have hinv : ∃ more, (CmdSSHCopyID w os usr key (start c)).2.invoked =
      [.onClient (.CmdFSHome usr), .onClient (.CmdUserGroup usr),
       .onClient (.CmdFSCheckDir (Join home (lit ".ssh"))),
       .CmdFSTempDir,
       .onClient (.CmdFSCheckFile (Join (Join home (lit ".ssh")) (lit "authorized_keys")))] ++
        more := by
    unfold CmdSSHCopyID
    simp only [hOS, if_true, Proc.bind_apply, Proc.pure_apply, callValue, callError,
      callTempDir, start, hHome, hGroup, hDir, Bool.not_true, Bool.false_eq_true, if_false,
      List.nil_append, List.cons_append]
    repeat' (split <;>
      simp only [*, Proc.bind_apply, Proc.pure_apply, callValue, callError, callTempDir,
        List.nil_append, List.cons_append])
    all_goals simp
  obtain ⟨rest, htr, ht⟩ := copyID_run_checked w os c c1 c2 c3 usr key home grp true hOS
    hHome hGroup hDir
  refine ⟨?_, hinv, ?_⟩ <;> rw [htr]
  all_goals
    generalize (CmdSSHCopyID w os usr key (start c)).1 = ret at ht
    have hne := authKeys_ne_sshDir (Join home (lit ".ssh")) home
    cases ht <;> (try simp only [dirDone, fileDone]) <;> (try split_ifs) <;>
      simp [hne]

/-- Witness for C3 as amended: the directory exists. -/
theorem copyID_existing_dir_not_created_witness :
    (demoEnv none true false []).IsUnix (lit "linux") = true ∧
    (demoEnv none true false []).CmdFSCheckDir (lit "linux") 2 (Join (lit "/home/u") (lit ".ssh"))
      = ((true, none), 3) ∧
    (CmdSSHCopyID (demoEnv none true false []) (lit "linux") (lit "u") (lit "k")
        (start 0)).2.trace.map Event.call =
      [.CmdFSHome (lit "u"), .CmdUserGroup (lit "u"), .CmdFSCheckDir (lit "/home/u/.ssh"),
       .CmdFSCheckFile (lit "/home/u/.ssh/authorized_keys"),
       .CmdFSAppendToFile (lit "/tmp/drlm_core_authorized_keys") (lit "k"),
       .CmdFSMove (lit "/tmp/drlm_core_authorized_keys") (lit "/home/u/.ssh/authorized_keys"),
       .CmdFSChown (lit "/home/u/.ssh/authorized_keys") (lit "u") (lit "users"),
       .CmdFSChmod (lit "/home/u/.ssh/authorized_keys") 0o600] ∧
    ∀ ev ∈ (CmdSSHCopyID (demoEnv none true false []) (lit "linux") (lit "u") (lit "k")
        (start 0)).2.trace,
      (∀ p, ev.call ≠ .CmdFSMkdir p) ∧
      (∀ u g, ev.call ≠ .CmdFSChown (Join (lit "/home/u") (lit ".ssh")) u g) ∧
      (∀ m, ev.call ≠ .CmdFSChmod (Join (lit "/home/u") (lit ".ssh")) m) :=
  ⟨by decide, by decide, by decide,
    (copyID_existing_dir_not_created (demoEnv none true false []) (lit "linux") 0 1 2 3 (lit "u")
      (lit "k") (lit "/home/u") (lit "users") (by decide) (by decide) (by decide)
      (by decide)).2.2⟩

/-- Counterexample to C3 as written: on a Unix OS where `CmdFSHome` and
`CmdUserGroup` succeed and `CmdFSCheckDir` reports that the directory exists,
the helper invoked next after `CmdFSCheckDir` is `CmdFSTempDir`, not
`CmdFSCheckFile`, which comes one invocation later. -/
theorem copyID_next_helper_counterexample :
    (demoEnv none true false []).IsUnix (lit "linux") = true ∧
    (demoEnv none true false []).CmdFSHome (lit "linux") 0 (lit "u") =
      ((lit "/home/u", none), 1) ∧
    (demoEnv none true false []).CmdUserGroup (lit "linux") 1 (lit "u") =
      ((lit "users", none), 2) ∧
    (demoEnv none true false []).CmdFSCheckDir (lit "linux") 2 (Join (lit "/home/u") (lit ".ssh"))
      = ((true, none), 3) ∧
    (CmdSSHCopyID (demoEnv none true false []) (lit "linux") (lit "u") (lit "k")
        (start 0)).2.invoked =
      [.onClient (.CmdFSHome (lit "u")), .onClient (.CmdUserGroup (lit "u")),
       .onClient (.CmdFSCheckDir (lit "/home/u/.ssh")),
       .CmdFSTempDir,
       .onClient (.CmdFSCheckFile (lit "/home/u/.ssh/authorized_keys")),
       .onClient (.CmdFSAppendToFile (lit "/tmp/drlm_core_authorized_keys") (lit "k")),
       .onClient (.CmdFSMove (lit "/tmp/drlm_core_authorized_keys")
         (lit "/home/u/.ssh/authorized_keys")),
       .onClient (.CmdFSChown (lit "/home/u/.ssh/authorized_keys") (lit "u") (lit "users")),
       .onClient (.CmdFSChmod (lit "/home/u/.ssh/authorized_keys") 0o600)] ∧
    (CmdSSHCopyID (demoEnv none true false []) (lit "linux") (lit "u") (lit "k")
        (start 0)).2.invoked.get? 2 =
      some (.onClient (.CmdFSCheckDir (Join (lit "/home/u") (lit ".ssh")))) ∧
    (CmdSSHCopyID (demoEnv none true false []) (lit "linux") (lit "u") (lit "k")
        (start 0)).2.invoked.get? 3 = some .CmdFSTempDir ∧
    (CmdSSHCopyID (demoEnv none true false []) (lit "linux") (lit "u") (lit "k")
        (start 0)).2.invoked.get? 3 ≠
      some (.onClient (.CmdFSCheckFile
        (Join (Join (lit "/home/u") (lit ".ssh")) (lit "authorized_keys")))) := by
  decide

/-- C8: on a Unix OS, when `CmdFSHome` and `CmdUserGroup` succeed and
`CmdFSCheckDir` reports that `sshDir = filepath.Join(home, ".ssh")` does not
exist, `CmdSSHCopyID` goes on with `CmdFSMkdir(sshDir)`, then, when that
succeeded, `CmdFSChown(sshDir, usr, grp)`, then, when that succeeded,
`CmdFSChmod(sshDir, 0700)`; the run ends at the first of the three that fails,
and when the three succeed the next call is the check of `authorized_keys`,
followed by calls on that file and its temporary copy only. -/
theorem copyID_missing_dir_created (w : Env OS Client) (os : OS) (c c1 c2 c3 : Client)
    (usr key home grp : Str) (hOS : w.IsUnix os = true)
    (hHome : w.CmdFSHome os c usr = ((home, none), c1))
    (hGroup : w.CmdUserGroup os c1 usr = ((grp, none), c2))
    (hDir : w.CmdFSCheckDir os c2 (Join home (lit ".ssh")) = ((false, none), c3)) :
    ∃ rest, (CmdSSHCopyID w os usr key (start c)).2.trace =
        [⟨.CmdFSHome usr, .bytes home⟩, ⟨.CmdUserGroup usr, .bytes grp⟩,
         ⟨.CmdFSCheckDir (Join home (lit ".ssh")), .flag false⟩] ++ rest ∧
      ((∃ e, rest = [⟨.CmdFSMkdir (Join home (lit ".ssh")), .failed e⟩]) ∨
       (∃ e, rest = [⟨.CmdFSMkdir (Join home (lit ".ssh")), .done⟩,
          ⟨.CmdFSChown (Join home (lit ".ssh")) usr grp, .failed e⟩]) ∨
       (∃ e, rest = [⟨.CmdFSMkdir (Join home (lit ".ssh")), .done⟩,
          ⟨.CmdFSChown (Join home (lit ".ssh")) usr grp, .done⟩,
          ⟨.CmdFSChmod (Join home (lit ".ssh")) 0o700, .failed e⟩]) ∨
       (∃ r more, rest = [⟨.CmdFSMkdir (Join home (lit ".ssh")), .done⟩,
          ⟨.CmdFSChown (Join home (lit ".ssh")) usr grp, .done⟩,
          ⟨.CmdFSChmod (Join home (lit ".ssh")) 0o700, .done⟩,
          ⟨.CmdFSCheckFile (Join (Join home (lit ".ssh")) (lit "authorized_keys")), r⟩] ++ more ∧
         ∀ ev ∈ more, ev.call ∈
          [Call.CmdFSCopy (Join (Join home (lit ".ssh")) (lit "authorized_keys"))
              (Join (w.CmdFSTempDir os) (lit "drlm_core_authorized_keys")),
           Call.CmdFSAppendToFile (Join (w.CmdFSTempDir os) (lit "drlm_core_authorized_keys")) key,
           Call.CmdFSMove (Join (w.CmdFSTempDir os) (lit "drlm_core_authorized_keys"))
              (Join (Join home (lit ".ssh")) (lit "authorized_keys")),
           Call.CmdFSChown (Join (Join home (lit ".ssh")) (lit "authorized_keys")) usr grp,
           Call.CmdFSChmod (Join (Join home (lit ".ssh")) (lit "authorized_keys")) 0o600])) := by
  obtain ⟨rest, htr, ht⟩ := copyID_run_checked w os c c1 c2 c3 usr key home grp false hOS
    hHome hGroup hDir
  refine ⟨rest, htr, ?_⟩
  generalize (CmdSSHCopyID w os usr key (start c)).1 = ret at ht
  cases ht <;>
    (try simp only [dirDone, fileDone, Bool.false_eq_true, if_false]) <;>
    (try split_ifs) <;> simp
  all_goals exact ⟨_, _, ⟨rfl, rfl⟩, by simp⟩

/-- Witness for C8: the directory is missing and `CmdFSChown` of it fails. -/
theorem copyID_missing_dir_created_witness :
    (demoEnv (some 4) false true []).IsUnix (lit "linux") = true ∧
    (demoEnv (some 4) false true []).CmdFSCheckDir (lit "linux") 2
      (Join (lit "/home/u") (lit ".ssh")) = ((false, none), 3) ∧
    (CmdSSHCopyID (demoEnv (some 4) false true []) (lit "linux") (lit "u") (lit "k")
        (start 0)).2.trace =
      [⟨.CmdFSHome (lit "u"), .bytes (lit "/home/u")⟩,
       ⟨.CmdUserGroup (lit "u"), .bytes (lit "users")⟩,
       ⟨.CmdFSCheckDir (lit "/home/u/.ssh"), .flag false⟩,
       ⟨.CmdFSMkdir (lit "/home/u/.ssh"), .done⟩,
       ⟨.CmdFSChown (lit "/home/u/.ssh") (lit "u") (lit "users"), .failed demoError⟩] ∧
    ∃ rest, (CmdSSHCopyID (demoEnv (some 4) false true []) (lit "linux") (lit "u") (lit "k")
        (start 0)).2.trace =
      [⟨.CmdFSHome (lit "u"), .bytes (lit "/home/u")⟩,
       ⟨.CmdUserGroup (lit "u"), .bytes (lit "users")⟩,
       ⟨.CmdFSCheckDir (Join (lit "/home/u") (lit ".ssh")), .flag false⟩] ++ rest := by
  refine ⟨by decide, by decide, by decide, ?_⟩
  obtain ⟨rest, h, -⟩ := copyID_missing_dir_created (demoEnv (some 4) false true []) (lit "linux")
    0 1 2 3 (lit "u") (lit "k") (lit "/home/u") (lit "users") (by decide) (by decide) (by decide)
    (by decide)
  exact ⟨rest, h⟩

end Theorems

end Drlm
